import Mathlib

/-!
# IoTPlotterPublisher: size estimate, JSON printer and the buffered POST

A shallow embedding of `src/IoTPlotterPublisher.cpp`.  Byte strings are
`List Char`, one `Char` per byte.  The parts of the base publisher that the
file uses but does not define (`txBuffer`, `bufferFree`, `printTxBuffer`, the
text constants `postHeader`, `HTTPtag`, `hostHeader`, and the buffer size
`MS_SEND_BUFFER_SIZE`) are modelled from the specification.
-/

namespace IoTPlotter

/-! ## C library and Arduino helpers -/

/-- The string terminator of C. -/
def NUL : Char := Char.ofNat 0

/-- One decimal digit as a character. -/
def digitChar (d : Nat) : Char := Char.ofNat (48 + d)

/-- Decimal digits of `n`, most significant first; `fuel` bounds the number of digits. -/
def toDecimalAux : Nat → Nat → List Char
  | 0, _ => []
  | fuel + 1, n =>
    if n < 10 then [digitChar n] else toDecimalAux fuel (n / 10) ++ [digitChar (n % 10)]

/-- Decimal rendering of an unsigned number, as `Print::print` of an unsigned value writes it. -/
def toDecimal (n : Nat) : List Char := toDecimalAux (n + 1) n

/-- Conversion of an unsigned value to the target's `int` of `w` bits (two's complement). -/
def toInt (w : Nat) (n : Nat) : Int :=
  let m := n % 2 ^ w
  if m < 2 ^ (w - 1) then Int.ofNat m else Int.negSucc (2 ^ w - m - 1)

/-- The text `itoa(v, buf, 10)` produces (without its terminator). -/
def itoa : Int → List Char
  | Int.ofNat n => toDecimal n
  | Int.negSucc n => '-' :: toDecimal (n + 1)

/-- The C string held in a character array: the bytes before the first terminator. -/
def cstr (buf : List Char) : List Char := buf.takeWhile (fun c => c != NUL)

/-- Writing the string `s` and its terminator at the start of a character array. -/
def strcpyInto (buf : List Char) (s : List Char) : List Char :=
  s ++ NUL :: buf.drop (s.length + 1)

/-- The text `String::toCharArray(buf, bufsize)` leaves in `buf`: at most `bufsize - 1` bytes. -/
def toCharArray (s : List Char) (buf : List Char) (bufsize : Nat) : List Char :=
  strcpyInto buf (s.take (bufsize - 1))

/-- The `isspace` class of C. -/
def isSpaceC (c : Char) : Bool := c.toNat = 32 || (9 ≤ c.toNat && c.toNat ≤ 13)

/-- The `isdigit` class of C. -/
def isDigitC (c : Char) : Bool := 48 ≤ c.toNat && c.toNat ≤ 57

/-- The digit loop of `atoi`: accumulates leading decimal digits. -/
def atoiDigits : List Char → Nat → Nat
  | [], acc => acc
  | c :: cs, acc => if isDigitC c then atoiDigits cs (acc * 10 + (c.toNat - 48)) else acc

/-- The value `atoi` parses from a C string: blanks, an optional sign, then digits. -/
def atoi (s : List Char) : Int :=
  match s.dropWhile isSpaceC with
  | [] => 0
  | c :: cs =>
    if c = '-' then - (atoiDigits cs 0 : Int)
    else if c = '+' then (atoiDigits cs 0 : Int)
    else (atoiDigits (c :: cs) 0 : Int)

/-- Conversion of an `int` to `int16_t` (two's complement wrap). -/
def toInt16 (v : Int) : Int := (v + 32768) % 65536 - 32768

/-! ## Text constants -/

/-- Modelled from the spec: `postHeader` of the base publisher, the method of the request line. -/
def postHeader : List Char := "POST ".toList

/-- Modelled from the spec: `HTTPtag` of the base publisher, the protocol tag of the request line. -/
def HTTPtag : List Char := " HTTP/1.1".toList

/-- Modelled from the spec: `hostHeader` of the base publisher. -/
def hostHeader : List Char := "\r\nHost: ".toList

def IoTPlotterHost : List Char := "iotplotter.com".toList
def postEndpoint : List Char := "/api/v2/feed/".toList
def apiHeader : List Char := "\r\napi-key: ".toList
def contentTypeHeader : List Char :=
  "\r\nContent-Type: application/x-www-form-urlencoded".toList
def contentLengthHeader : List Char := "\r\nContent-Length: ".toList
def samplingFeatureTag : List Char := "\x7b\"data\":\x7b\"".toList
def JSONvalueTag : List Char := "\":[\x7b\"value\":".toList
def epochTag : List Char := ", \"epoch\":".toList

/-! ## The logger's data -/

/-- One variable of the logger: `getVarCodeAtI(i)` and `getValueStringAtI(i)`.  The
logger's variables are a list; its length is `getArrayVarCount()`, an 8-bit count, so
each loop over `uint8_t i` visits every variable once. -/
structure Variable where
  varCode : List Char
  valueString : List Char
deriving DecidableEq, Repr

/-! ## calculateJsonSize -/

/-- The loop of `calculateJsonSize`, one step per variable; `jsonLength` is a 16-bit
unsigned accumulator and `rest ≠ []` is the test `i + 1 != getArrayVarCount()`. -/
def calculateJsonSizeLoop : List Variable → Nat → Nat
  | [], jsonLength => jsonLength
  | v :: rest, jsonLength =>
    let j := (jsonLength + v.varCode.length) % 65536
    let j := (j + 12) % 65536
    let j := (j + v.valueString.length) % 65536
    let j := (j + 10) % 65536
    let j := (j + 10) % 65536
    let j := (j + 3) % 65536
    let j := if rest ≠ [] then (j + 2) % 65536 else j
    calculateJsonSizeLoop rest j

/-- The value `calculateJsonSize()` returns for the logger's variables. -/
def calculateJsonSize (vars : List Variable) : Nat :=
  (calculateJsonSizeLoop vars 10 + 2) % 65536

/-! ## printSensorDataJSON -/

/-- The loop of `printSensorDataJSON`: what the passes print, one per variable;
`rest ≠ []` is the test `i + 1 != getArrayVarCount()` and `epoch` is
`Logger::markedLocalEpochTime`, printed as an unsigned number. -/
def printSensorDataJSONLoop (epoch : Nat) : List Variable → List Char
  | [] => []
  | v :: rest =>
    v.varCode ++ JSONvalueTag ++ v.valueString ++ epochTag ++ toDecimal epoch ++ "\x7d]".toList
      ++ (if rest ≠ [] then ",\"".toList else [])
      ++ printSensorDataJSONLoop epoch rest

/-- The bytes `printSensorDataJSON` prints to the stream. -/
def printSensorDataJSON (vars : List Variable) (epoch : Nat) : List Char :=
  samplingFeatureTag ++ printSensorDataJSONLoop epoch vars ++ "\x7d\x7d".toList

/-- The example payload of the specification: TEMP = 23.5 and HUM = 60.2. -/
def demoVars : List Variable :=
  [⟨"TEMP".toList, "23.5".toList⟩, ⟨"HUM".toList, "60.2".toList⟩]

/-! ## The transmit buffer -/

/-- The target's build constants that the source leaves to the platform. -/
structure Target where
  /-- `MS_SEND_BUFFER_SIZE`, that is `sizeof(txBuffer)`; 750 by default. -/
  bufferSize : Nat
  /-- The width of `int`, the argument type of `itoa`. -/
  intBits : Nat

/-- The reference build: the default 750-byte transmit buffer on a board whose `int`
has 32 bits. -/
def defaultTarget : Target := ⟨750, 32⟩

/-- The memory `publishData` works on and what it has handed to the transport, with
two ghost fields that record every token appended and the largest fill level reached. -/
structure TxState where
  /-- Modelled from the spec: `txBuffer` of the base publisher, given as the C string that
  starts at the array, so that `strlen(txBuffer)` is the length of this list; inside the
  array the bytes behind the terminator are zero, as a flush leaves them.  The list is
  longer than the array when the string runs on behind it. -/
  txBuffer : List Char
  /-- The memory behind the array, from offset `sizeof(txBuffer)` on, as far as
  `publishData` has written there; the bytes behind the list are zero.  No flush
  touches it. -/
  behind : List Char
  /-- The 37 bytes of `tempBuffer`. -/
  tempBuffer : List Char
  /-- The chunks handed to the transport, one per flush, in order. -/
  sent : List (List Char)
  /-- Ghost: every token passed to an append, uncut, in order. -/
  composed : List Char
  /-- Ghost: the largest number of bytes `txBuffer` held after any append. -/
  peak : Nat
deriving DecidableEq, Repr

/-- Modelled from the spec: `bufferFree()` of the base publisher, capacity minus bytes used. -/
def bufferFree (t : Target) (s : TxState) : Int :=
  (t.bufferSize : Int) - (s.txBuffer.length : Int)

/-- Modelled from the spec: `printTxBuffer` of the base publisher, which hands the
used bytes (`strlen(txBuffer)` of them) to the transport as one chunk and resets the
buffer to empty.  What has been written behind the array stays there. -/
def printTxBuffer (s : TxState) : TxState :=
  { s with sent := s.sent ++ [s.txBuffer], txBuffer := [] }

/-- The statement `if (bufferFree() < n) printTxBuffer(outClient);`. -/
def flushIfBelow (t : Target) (n : Int) (s : TxState) : TxState :=
  if bufferFree t s < n then printTxBuffer s else s

/-- The statement `snprintf(txBuffer, sizeof(txBuffer), "%s", tok)`: the buffer holds
`tok`, cut to `sizeof(txBuffer) - 1` bytes. -/
def snprintfStart (t : Target) (tok : List Char) (s : TxState) : TxState :=
  let tx := tok.take (t.bufferSize - 1)
  { s with txBuffer := tx, composed := s.composed ++ tok, peak := max s.peak tx.length }

/-- The statement
`snprintf(txBuffer + strlen(txBuffer), sizeof(txBuffer) - strlen(txBuffer), "%s", tok)`:
`tok` is appended, cut so that the string and its terminator stay inside the array.
Every such statement of `publishData` finds the string inside the array: between the
closing bytes of a record and the next append stands a test of the free space, which
flushes a string that has reached the end of the array. -/
def snprintfAppend (t : Target) (tok : List Char) (s : TxState) : TxState :=
  let tx := s.txBuffer ++ tok.take (t.bufferSize - s.txBuffer.length - 1)
  { s with txBuffer := tx, composed := s.composed ++ tok, peak := max s.peak tx.length }

/-- The statement `txBuffer[strlen(txBuffer)] = c`: the byte is written over the
terminator, without any bound check, and the next zero byte in memory ends the string.
While the byte lies before the last cell of the array, the byte behind it is zero and
the string grows by one byte.  A byte written into the last cell, or behind the array,
is followed by what stands behind the array at that place, so the string runs on to
the next zero byte there; a byte written behind the array stays in `behind`. -/
def putAtEnd (t : Target) (c : Char) (s : TxState) : TxState :=
  let n := s.txBuffer.length
  let rest :=
    if n + 1 < t.bufferSize then [] else cstr (s.behind.drop (n + 1 - t.bufferSize))
  let tx := s.txBuffer ++ c :: rest
  { s with
    txBuffer := tx
    behind :=
      if n < t.bufferSize then s.behind
      else s.behind.take (n - t.bufferSize) ++ c :: s.behind.drop (n + 1 - t.bufferSize)
    composed := s.composed ++ [c]
    peak := max s.peak tx.length }

/-- A write of a string and its terminator into `tempBuffer`. -/
def setTemp (text : List Char) (s : TxState) : TxState :=
  { s with tempBuffer := strcpyInto s.tempBuffer text }

/-- The statement `snprintf(txBuffer + strlen(txBuffer), ..., "%s", tempBuffer)`. -/
def appendTemp (t : Target) (s : TxState) : TxState :=
  snprintfAppend t (cstr s.tempBuffer) s

/-! ## publishData -/

/-- The publisher's settings: `_feedID` and `_registrationToken`. -/
structure Publisher where
  feedID : List Char
  registrationToken : List Char

/-- The state at entry of `publishData`: `char tempBuffer[37] = ""` is zero-filled, and
the memory behind `txBuffer` holds zero bytes, as it does until a call writes there. -/
def initState (tx0 : List Char) : TxState :=
  { txBuffer := tx0, behind := [], tempBuffer := List.replicate 37 NUL, sent := [],
    composed := [], peak := 0 }

/-- Lines 183-236 of `publishData`: the request line, the headers and the JSON opening. -/
def composeHeader (t : Target) (p : Publisher) (vars : List Variable) (s : TxState) : TxState :=
  let s := snprintfStart t postHeader s
  let s := snprintfAppend t "http://".toList s
  let s := snprintfAppend t IoTPlotterHost s
  let s := snprintfAppend t postEndpoint s
  let s := snprintfAppend t p.feedID s
  let s := snprintfAppend t HTTPtag s
  let s := flushIfBelow t 28 s
  let s := snprintfAppend t "\r\nConnection: Close".toList s
  let s := flushIfBelow t 55 s
  let s := snprintfAppend t apiHeader s
  let s := snprintfAppend t p.registrationToken s
  let s := flushIfBelow t 55 s
  let s := snprintfAppend t contentTypeHeader s
  let s := flushIfBelow t 25 s
  let s := snprintfAppend t contentLengthHeader s
  let s := setTemp (itoa (toInt t.intBits (calculateJsonSize vars))) s
  let s := appendTemp t s
  let s := flushIfBelow t 25 s
  let s := snprintfAppend t hostHeader s
  let s := snprintfAppend t IoTPlotterHost s
  let s := snprintfAppend t "\r\n".toList s
  let s := flushIfBelow t 21 s
  snprintfAppend t samplingFeatureTag s

/-- One pass of the record loop of `publishData` (lines 243-276); `more` is the
test `i + 1 != getArrayVarCount()`. -/
def composeRecord (t : Target) (epoch : Nat) (v : Variable) (more : Bool) (s : TxState) :
    TxState :=
  let s := flushIfBelow t 47 s
  let s := { s with tempBuffer := toCharArray v.varCode s.tempBuffer 37 }
  let s := appendTemp t s
  let s := snprintfAppend t JSONvalueTag s
  let s := { s with tempBuffer := toCharArray v.valueString s.tempBuffer 37 }
  let s := appendTemp t s
  let s := snprintfAppend t epochTag s
  let s := setTemp (itoa (toInt t.intBits epoch)) s
  let s := appendTemp t s
  if more then
    putAtEnd t '"' (putAtEnd t ',' (putAtEnd t ']' (putAtEnd t '\x7d' s)))
  else
    putAtEnd t '\x7d' (putAtEnd t '\x7d' (putAtEnd t ']' (putAtEnd t '\x7d' s)))

/-- The record loop of `publishData` (lines 242-277). -/
def composeRecords (t : Target) (epoch : Nat) : List Variable → TxState → TxState
  | [], s => s
  | v :: rest, s => composeRecords t epoch rest (composeRecord t epoch v (rest ≠ []) s)

/-- Lines 183-280 of `publishData`: everything composed and flushed after the connect. -/
def composeRequest (t : Target) (p : Publisher) (vars : List Variable) (epoch : Nat)
    (s : TxState) : TxState :=
  printTxBuffer (composeRecords t epoch vars (composeHeader t p vars s))

/-! ## The transport, the clock and the response -/

/-- What one call of `publishData` sees of its surroundings. -/
structure Env where
  /-- The result of `outClient->connect(...)`. -/
  connect : Bool
  /-- The reading of the `k`-th call of `millis()`; call 0 is `start = millis()`. -/
  millis : Nat → Nat
  /-- The result of the `k`-th call of `outClient->available()`. -/
  available : Nat → Nat
  /-- The bytes the transport delivers to `readBytes`, which takes at most 12 of them. -/
  incoming : List Char
  /-- The bytes found in memory from `responseCode_char[3]` on, up to the first zero
  byte: the function never writes them. -/
  stack : List Char

/-- The difference `millis() - start` of two `uint32_t` readings. -/
def elapsed (start now : Nat) : Nat :=
  (now % 4294967296 + 4294967296 - start % 4294967296) % 4294967296

/-- The elapsed time seen by the `k`-th test of the wait loop. -/
def elapsedAt (e : Env) (k : Nat) : Nat := elapsed (e.millis 0) (e.millis (k + 1))

/-- The loop `while ((millis() - start) < 10000L && outClient->available() < 12) delay(10);`
started at its `k`-th test; the result is the number of times it idled. -/
def waitLoop (e : Env) : Nat → Nat → Option Nat
  | 0, _ => none
  | fuel + 1, k =>
    if elapsedAt e k < 10000 ∧ e.available k < 12 then waitLoop e fuel (k + 1) else some k

/-- The statement `did_respond = outClient->readBytes(tempBuffer, 12)`: the bytes
obtained overwrite the start of `tempBuffer`; no terminator is written. -/
def readBytes (e : Env) (s : TxState) : Nat × TxState :=
  let got := e.incoming.take 12
  (got.length, { s with tempBuffer := got ++ s.tempBuffer.drop got.length })

/-- Lines 304-313 of `publishData`: the status taken from offsets 9 to 11 of `tempBuffer`. -/
def responseCodeOf (did_respond : Nat) (tempBuffer : List Char) (stack : List Char) : Int :=
  if did_respond > 0 then
    let responseCode_char :=
      [tempBuffer.getD 9 NUL, tempBuffer.getD 10 NUL, tempBuffer.getD 11 NUL] ++ stack
    toInt16 (atoi (cstr responseCode_char))
  else 504

/-- What a call of `publishData` leaves behind. -/
structure Outcome where
  /-- The value returned. -/
  responseCode : Int
  /-- The buffers and the chunks handed to the transport. -/
  state : TxState
  /-- The number of `delay(10)` calls of the wait loop. -/
  idles : Nat
  /-- The value of `did_respond`: the number of response bytes read. -/
  did_respond : Nat

/-- The function `publishData`.  `tx0` is what `txBuffer` holds at entry; `fuel` bounds
the number of tests of the wait loop, and the result is `none` when it is used up.
When the connect fails nothing is composed, `did_respond` keeps its initial 0 and the
common status code at the end runs on the untouched `tempBuffer`. -/
def publishData (t : Target) (p : Publisher) (vars : List Variable) (epoch : Nat) (e : Env)
    (fuel : Nat) (tx0 : List Char) : Option Outcome :=
  let s0 := initState tx0
  if e.connect then
    let s := composeRequest t p vars epoch s0
    match waitLoop e fuel 0 with
    | none => none
    | some idles =>
      let r := readBytes e s
      some ⟨responseCodeOf r.1 r.2.tempBuffer e.stack, r.2, idles, r.1⟩
  else
    some ⟨responseCodeOf 0 s0.tempBuffer e.stack, s0, 0, 0⟩

/-- All bytes handed to the transport, in order. -/
def wire (o : Outcome) : List Char := o.state.sent.flatten

/-! ## Concrete runs -/

/-- A feed id and an API key of the shapes the portal issues (18 and 40 characters). -/
def demoPublisher : Publisher :=
  ⟨"123456789012345678".toList, "0123456789abcdef0123456789abcdef01234567".toList⟩

/-- A transport that connects and has the start of a `201 Created` response ready;
the byte behind the three status digits is zero. -/
def createdEnv : Env :=
  { connect := true, millis := fun k => 10 * k, available := fun _ => 22,
    incoming := "HTTP/1.1 201 Created\r\n".toList, stack := [] }

/-- A transport that connects and never delivers a byte; the clock gains 10 ms per idle. -/
def silentEnv : Env :=
  { connect := true, millis := fun k => 10 * k, available := fun _ => 0,
    incoming := [], stack := [] }

/-- A transport that connects and delivers only the five bytes `HTTP/`. -/
def partialEnv : Env :=
  { connect := true, millis := fun k => 10 * k, available := fun _ => 5,
    incoming := "HTTP/".toList, stack := [] }

/-- The transport of `createdEnv`, with the digit `7` in the byte behind the three
status digits copied into `responseCode_char`. -/
def createdDirtyEnv : Env :=
  { connect := true, millis := fun k => 10 * k, available := fun _ => 22,
    incoming := "HTTP/1.1 201 Created\r\n".toList, stack := "7".toList }

/-- A transport whose connect fails. -/
def refusedEnv : Env :=
  { connect := false, millis := fun k => 10 * k, available := fun _ => 0,
    incoming := [], stack := [] }

/-- Ten variables of a monitoring station; with `demoPublisher` the last record
starts when 703 of the 750 bytes are used. -/
def fieldVars : List Variable :=
  [⟨"BatteryVolt".toList, "4.71".toList⟩, ⟨"BoardTemp".toList, "24.25".toList⟩,
   ⟨"SampleNumber".toList, "1024".toList⟩, ⟨"CTDconductivity".toList, "512.3".toList⟩,
   ⟨"CTDtemperature".toList, "18.42".toList⟩, ⟨"CTDdepth".toList, "1250.7".toList⟩,
   ⟨"TurbidityLow".toList, "12.50".toList⟩, ⟨"TurbHigh".toList, "13.75".toList⟩,
   ⟨"SignalPct".toList, "78".toList⟩, ⟨"SoilMoisture".toList, "31.25".toList⟩]

/-- The header block as `publishData` composes it, with `n` in the content-length line;
it ends with the single line break that follows the host name. -/
def headerBlock (p : Publisher) (n : Nat) : List Char :=
  postHeader ++ "http://".toList ++ IoTPlotterHost ++ postEndpoint ++ p.feedID ++ HTTPtag
    ++ "\r\nConnection: Close".toList ++ apiHeader ++ p.registrationToken ++ contentTypeHeader
    ++ contentLengthHeader ++ toDecimal n ++ hostHeader ++ IoTPlotterHost ++ "\r\n".toList

/-- The 97 bytes that follow the header block in the run on `demoVars`. -/
def demoBody : List Char :=
  ("\x7b\"data\":\x7b\"TEMP\":[\x7b\"value\":23.5, \"epoch\":1690000000\x7d],"
    ++ "\"HUM\":[\x7b\"value\":60.2, \"epoch\":1690000000\x7d]\x7d\x7d").toList

/-- A payload of one variable, TEMP = 23.5. -/
def soloVars : List Variable := [⟨"TEMP".toList, "23.5".toList⟩]

/-- The 54 bytes that follow the header block in the run on `soloVars`. -/
def soloBody : List Char :=
  "\x7b\"data\":\x7b\"TEMP\":[\x7b\"value\":23.5, \"epoch\":1690000000\x7d]\x7d\x7d".toList

/-- One record in the words of the grammar, with the blank that `epochTag` carries. -/
def recordFragment (epoch : Nat) (v : Variable) : List Char :=
  "\"".toList ++ v.varCode ++ "\":[\x7b\"value\":".toList ++ v.valueString
    ++ ", \"epoch\":".toList ++ toDecimal epoch ++ "\x7d]".toList

/-- The JSON body in the words of the grammar: the opening, the records in input
order joined by one comma, the closing. -/
def jsonGrammar (vars : List Variable) (epoch : Nat) : List Char :=
  "\x7b\"data\":\x7b".toList ++ (",".toList).intercalate (vars.map (recordFragment epoch))
    ++ "\x7d\x7d".toList

/-- The clock moves on while the wait lasts: as long as fewer than 10000 ms have
elapsed, the next test of the loop sees a later time. -/
def ClockAdvances (e : Env) : Prop :=
  ∀ k, elapsedAt e k < 10000 → elapsedAt e k < elapsedAt e (k + 1)

/-! ## printIoTPlotterRequest -/

/-- The bytes `printIoTPlotterRequest` prints to the stream; `calculateJsonSize()` is
printed as an unsigned number. -/
def printIoTPlotterRequest (p : Publisher) (vars : List Variable) (epoch : Nat) : List Char :=
  postHeader ++ "http://".toList ++ IoTPlotterHost ++ postEndpoint ++ p.feedID ++ HTTPtag
    ++ "\r\nConnection: Close".toList ++ apiHeader ++ p.registrationToken ++ contentTypeHeader
    ++ contentLengthHeader ++ toDecimal (calculateJsonSize vars) ++ hostHeader ++ IoTPlotterHost
    ++ "\r\n\r\n".toList ++ printSensorDataJSON vars epoch

/-! ## The token groups of publishData -/

/-- Lines 183-193 of `publishData`: the appends of the request line, which no test of
the free space precedes. -/
def requestLineAppends (t : Target) (p : Publisher) (s : TxState) : TxState :=
  let s := snprintfStart t postHeader s
  let s := snprintfAppend t "http://".toList s
  let s := snprintfAppend t IoTPlotterHost s
  let s := snprintfAppend t postEndpoint s
  let s := snprintfAppend t p.feedID s
  snprintfAppend t HTTPtag s

/-- Lines 217-222 of `publishData`: the appends of the content-length line. -/
def contentLengthAppends (t : Target) (vars : List Variable) (s : TxState) : TxState :=
  let s := snprintfAppend t contentLengthHeader s
  let s := setTemp (itoa (toInt t.intBits (calculateJsonSize vars))) s
  appendTemp t s

/-- Lines 246-276 of `publishData`: the appends of one record, from its name through
its four closing characters. -/
def recordAppends (t : Target) (epoch : Nat) (v : Variable) (more : Bool) (s : TxState) :
    TxState :=
  let s := { s with tempBuffer := toCharArray v.varCode s.tempBuffer 37 }
  let s := appendTemp t s
  let s := snprintfAppend t JSONvalueTag s
  let s := { s with tempBuffer := toCharArray v.valueString s.tempBuffer 37 }
  let s := appendTemp t s
  let s := snprintfAppend t epochTag s
  let s := setTemp (itoa (toInt t.intBits epoch)) s
  let s := appendTemp t s
  if more then
    putAtEnd t '"' (putAtEnd t ',' (putAtEnd t ']' (putAtEnd t '\x7d' s)))
  else
    putAtEnd t '\x7d' (putAtEnd t '\x7d' (putAtEnd t ']' (putAtEnd t '\x7d' s)))

/-- A token group of `publishData` that follows the request line: the free space
tested before it and the statements that append its tokens. -/
structure Group where
  threshold : Int
  appends : TxState → TxState

/-- The groups of lines 199-236: the five header lines and the JSON opening. -/
def headerGroups (t : Target) (p : Publisher) (vars : List Variable) : List Group :=
  [⟨28, snprintfAppend t "\r\nConnection: Close".toList⟩,
   ⟨55, fun s => snprintfAppend t p.registrationToken (snprintfAppend t apiHeader s)⟩,
   ⟨55, snprintfAppend t contentTypeHeader⟩,
   ⟨25, contentLengthAppends t vars⟩,
   ⟨25, fun s => snprintfAppend t "\r\n".toList
      (snprintfAppend t IoTPlotterHost (snprintfAppend t hostHeader s))⟩,
   ⟨21, snprintfAppend t samplingFeatureTag⟩]

/-- The groups of the record loop, one per variable. -/
def recordGroups (t : Target) (epoch : Nat) : List Variable → List Group
  | [] => []
  | v :: rest => ⟨47, recordAppends t epoch v (rest ≠ [])⟩ :: recordGroups t epoch rest

/-- One group: the test of the free space with its flush, then the appends. -/
def runGroup (t : Target) (s : TxState) (g : Group) : TxState :=
  g.appends (flushIfBelow t g.threshold s)

/-- The groups run in order. -/
def runGroups (t : Target) (gs : List Group) (s : TxState) : TxState :=
  gs.foldl (runGroup t) s

/-- The text a name or a value contributes to its record: it passes through
`toCharArray(tempBuffer, 37)`, which keeps its first 36 bytes, and is appended as the
C string found there. -/
def viaTemp (text : List Char) : List Char := cstr (text.take 36)

/-- The token group of one record, whole: the tokens that lines 246-276 pass to the
appends, from the name through the four closing characters. -/
def recordTokens (t : Target) (epoch : Nat) (v : Variable) (more : Bool) : List Char :=
  viaTemp v.varCode ++ JSONvalueTag ++ viaTemp v.valueString ++ epochTag
    ++ itoa (toInt t.intBits epoch)
    ++ (if more then "\x7d],\"".toList else "\x7d]\x7d\x7d".toList)

/-- The token groups of the record loop, whole, one per variable. -/
def recordTokenGroups (t : Target) (epoch : Nat) : List Variable → List (List Char)
  | [] => []
  | v :: rest => recordTokens t epoch v (rest ≠ []) :: recordTokenGroups t epoch rest

/-- The token groups of one connected run, whole, as the statements of `publishData`
pass them to the appends: the request line, the five header lines, the JSON opening
and one group per record. -/
def tokenGroups (t : Target) (p : Publisher) (vars : List Variable) (epoch : Nat) :
    List (List Char) :=
  [postHeader ++ "http://".toList ++ IoTPlotterHost ++ postEndpoint ++ p.feedID ++ HTTPtag,
   "\r\nConnection: Close".toList,
   apiHeader ++ p.registrationToken,
   contentTypeHeader,
   contentLengthHeader ++ itoa (toInt t.intBits (calculateJsonSize vars)),
   hostHeader ++ IoTPlotterHost ++ "\r\n".toList,
   samplingFeatureTag]
    ++ recordTokenGroups t epoch vars

/-- The chunk is a concatenation of whole groups that follow one another in `groups`. -/
def isRunOfGroups (groups : List (List Char)) (chunk : List Char) : Bool :=
  (List.range (groups.length + 1)).any fun i =>
    (List.range (groups.length + 1)).any fun n =>
      decide (((groups.drop i).take n).flatten = chunk)

/-- No byte has been lost so far: the chunks handed to the transport followed by the
bytes still buffered are the tokens composed. -/
def Conserved (s : TxState) : Prop := s.sent.flatten ++ s.txBuffer = s.composed

/-- The string and its terminator have stayed inside the array so far. -/
def Inside (t : Target) (s : TxState) : Prop :=
  s.txBuffer.length ≤ s.peak ∧ s.peak < t.bufferSize

/-- The group `g` fits its threshold on the target `t`: run with at least that much free
space, its appends lose no byte and keep the string inside the array. -/
def Fits (t : Target) (g : Group) : Prop :=
  ∀ s, Conserved s → Inside t s →
    (s.txBuffer.length : Int) + g.threshold ≤ (t.bufferSize : Int) →
    Conserved (g.appends s) ∧ Inside t (g.appends s)

/-- The chunks handed to the transport so far and the bytes buffered are the whole
groups `done`, in order: every chunk is a block of consecutive groups, and the buffer
holds the groups behind the last chunk. -/
def Aligned (done : List (List Char)) (s : TxState) : Prop :=
  ∃ (blocks : List (List (List Char))) (pending : List (List Char)),
    blocks.flatten ++ pending = done ∧ s.sent = blocks.map List.flatten
      ∧ s.txBuffer = pending.flatten

/-! ## Measures used in the statements -/

/-- Three status bytes from which `atoi` cannot start a number: after white space and
at most one sign, the next of the bytes is there and is no decimal digit. -/
def nonNumericStart (bytes : List Char) : Bool :=
  match bytes.dropWhile isSpaceC with
  | [] => false
  | c :: cs =>
    if c = '-' ∨ c = '+' then
      match cs with
      | [] => false
      | d :: _ => !isDigitC d
    else !isDigitC c

/-! ## Further concrete inputs -/

/-- A transport that connects and answers with two blanks before the status. -/
def doubleBlankEnv : Env :=
  { connect := true, millis := fun k => 10 * k, available := fun _ => 18,
    incoming := "HTTP/1.1  200 OK\r\n".toList, stack := [] }

/-- A transport that connects and answers with a status line that carries no number. -/
def garbledEnv : Env :=
  { connect := true, millis := fun k => 10 * k, available := fun _ => 18,
    incoming := "HTTP/1.1 ERR oops\r\n".toList, stack := "9".toList }

/-- The last variable of `fieldVars`. -/
def soilVar : Variable := ⟨"SoilMoisture".toList, "31.25".toList⟩

/-- A variable whose name and value both have the 36 bytes that pass through `tempBuffer`. -/
def wideVar : Variable := ⟨List.replicate 36 'N', List.replicate 36 '9'⟩

/-- Twelve variables of the kind of `wideVar`: the run on them fills the array twice. -/
def wideRunVars : List Variable := List.replicate 12 wideVar

/-- A build with the default buffer for a board whose `int` has 16 bits. -/
def smallIntTarget : Target := ⟨750, 16⟩

/-! ## Names and values cut to 36 bytes -/

/-- The payload as it passes through the 37-byte `tempBuffer`: every name and every
value cut to its first 36 bytes. -/
def cutTo36 (vars : List Variable) : List Variable :=
  vars.map (fun v => ⟨v.varCode.take 36, v.valueString.take 36⟩)

/-- The number of bytes beyond 36 in the names and values of the payload. -/
def excess36 (vars : List Variable) : Nat :=
  (vars.map (fun v => (v.varCode.length - 36) + (v.valueString.length - 36))).sum

/-- The connected run on these inputs loses no byte: `snprintf` cuts no token at the end
of the transmit buffer. -/
def Uncut (t : Target) (p : Publisher) (vars : List Variable) (epoch : Nat) : Prop :=
  (composeRequest t p vars epoch (initState [])).sent.flatten
    = (composeRequest t p vars epoch (initState [])).composed

/-- In the connected run on these inputs the string in `txBuffer` stays, with its
terminator, inside the array: the fill level never reaches `sizeof(txBuffer)`, so no
statement reads or writes a byte behind the array. -/
def InArray (t : Target) (p : Publisher) (vars : List Variable) (epoch : Nat) : Prop :=
  (composeRequest t p vars epoch (initState [])).peak < t.bufferSize

/-- One variable with a name of 40 bytes. -/
def longNameVars : List Variable :=
  [⟨"SoilMoistureAtFortyCentimetreDepthProbe2".toList, "31.25".toList⟩]

/-- The first nine variables of `fieldVars`, then the variable of `longNameVars`. -/
def longFieldVars : List Variable := fieldVars.take 9 ++ longNameVars

/-- A transport that connects and delivers only the nine bytes `HTTP/1.1 `. -/
def nineBytesEnv : Env :=
  { connect := true, millis := fun k => 10 * k, available := fun _ => 9,
    incoming := "HTTP/1.1 ".toList, stack := [] }

/-! ## Size estimate against the bytes printed -/

/-- C1: for the payload TEMP = 23.5, HUM = 60.2 at epoch 1690000000 the printer
`printSensorDataJSON` writes 97 bytes while `calculateJsonSize` returns 99: the
estimate counts three bytes for the two-byte closing of each record. -/
theorem calculateJsonSize_demo_exceeds_printed :
    (printSensorDataJSON demoVars 1690000000).length = 97 ∧ calculateJsonSize demoVars = 99 := by
  decide

/-! ## Decimal rendering -/

/-- A number with exactly `d + 1` decimal digits is rendered in `d + 1` characters. -/
theorem toDecimalAux_length (d : Nat) :
    ∀ (fuel n : Nat), d < fuel → n < 10 ^ (d + 1) → (d = 0 ∨ 10 ^ d ≤ n) →
      (toDecimalAux fuel n).length = d + 1 := by
  induction d with
  | zero =>
    intro fuel n hf hn _
    cases fuel with
    | zero => omega
    | succ f =>
      have h10 : n < 10 := by simpa using hn
      simp [toDecimalAux, h10]
  | succ d ih =>
    intro fuel n hf hn hlow
    cases fuel with
    | zero => omega
    | succ f =>
      have hpos : 0 < 10 ^ d := Nat.pow_pos (by decide)
      have hlow2 : 10 ^ (d + 1) ≤ n := by
        rcases hlow with h | h
        · omega
        · exact h
      have e1 : 10 ^ (d + 1) = 10 ^ d * 10 := Nat.pow_succ _ _
      have e2 : 10 ^ (d + 1 + 1) = 10 ^ d * 10 * 10 := by rw [Nat.pow_succ, Nat.pow_succ]
      have hge : ¬ n < 10 := by omega
      have hq1 : n / 10 < 10 ^ (d + 1) := by
        rw [Nat.div_lt_iff_lt_mul (by decide)]
        omega
      have hq2 : 10 ^ d ≤ n / 10 := by
        rw [Nat.le_div_iff_mul_le (by decide)]
        omega
      have := ih f (n / 10) (by omega) hq1 (Or.inr hq2)
      simp [toDecimalAux, hge, this]

/-- A ten-digit epoch is rendered in ten characters. -/
theorem toDecimal_length_ten (n : Nat) (h1 : 1000000000 ≤ n) (h2 : n < 10000000000) :
    (toDecimal n).length = 10 := by
  unfold toDecimal
  exact toDecimalAux_length 9 (n + 1) n (by omega) (by norm_num; omega) (Or.inr (by norm_num; omega))

/-! ## The estimate counts one byte too many per record -/

/-- The loop of `calculateJsonSize` adds, modulo 2^16, the bytes the printing loop writes
plus one per record. -/
theorem calculateJsonSizeLoop_mod (epoch : Nat) (he : (toDecimal epoch).length = 10) :
    ∀ (vars : List Variable) (j : Nat),
      calculateJsonSizeLoop vars j % 65536
        = (j + (printSensorDataJSONLoop epoch vars).length + vars.length) % 65536 := by
  intro vars
  induction vars with
  | nil => intro j; simp [calculateJsonSizeLoop, printSensorDataJSONLoop]
  | cons v rest ih =>
    intro j
    have hv : JSONvalueTag.length = 12 := rfl
    have ht : epochTag.length = 10 := rfl
    cases rest with
    | nil =>
      simp only [calculateJsonSizeLoop, printSensorDataJSONLoop, List.length_append, he, hv, ht,
        List.length_cons, List.length_nil, ne_eq, not_true_eq_false, ite_false, String.toList]
      simp
      omega
    | cons w rest2 =>
      rw [calculateJsonSizeLoop.eq_def]
      simp only [ne_eq, reduceCtorEq, not_false_eq_true, ite_true]
      rw [ih]
      simp only [printSensorDataJSONLoop, List.length_append, he, hv, ht, List.length_cons,
        ne_eq, reduceCtorEq, not_false_eq_true, ite_true, String.toList]
      simp
      omega

/-- For a ten-digit epoch the estimate is, modulo 2^16, the number of bytes printed plus
the number of records. -/
theorem calculateJsonSize_eq_printed_plus_count (vars : List Variable) (epoch : Nat)
    (he : (toDecimal epoch).length = 10) :
    calculateJsonSize vars
      = ((printSensorDataJSON vars epoch).length + vars.length) % 65536 := by
  have h := calculateJsonSizeLoop_mod epoch he vars 10
  have hs : samplingFeatureTag.length = 10 := rfl
  unfold calculateJsonSize printSensorDataJSON
  simp only [List.length_append, hs, String.toList]
  simp
  omega

/-- For a ten-digit epoch and any payload of 1 to 65535 records the estimate differs from
the number of bytes printed. -/
theorem calculateJsonSize_ne_printed (vars : List Variable) (epoch : Nat)
    (he : (toDecimal epoch).length = 10) (hne : vars ≠ []) (hk : vars.length < 65536) :
    calculateJsonSize vars ≠ (printSensorDataJSON vars epoch).length := by
  have h := calculateJsonSize_eq_printed_plus_count vars epoch he
  have hpos : 0 < vars.length := List.length_pos.mpr hne
  omega

/-! ## The declared length against the body sent -/

/-- C2: in the connected run on the single record TEMP = 23.5 at epoch 1690000000 the
transport receives the header block with `Content-Length: 55` followed by a body of
54 bytes. -/
theorem publishData_solo_declares_55_sends_54 :
    (publishData defaultTarget demoPublisher soloVars 1690000000 createdEnv 1 []).map wire
        = some (headerBlock demoPublisher 55 ++ soloBody)
      ∧ soloBody.length = 54 := by
  decide!

/-! ## The transmit buffer at its limit -/

/-- C3: in the connected run on `fieldVars` the bytes handed to the transport are
not the bytes composed: of the last record's epoch `1690000000` only `1690000`
enters the buffer, so the transport receives the first 749 composed bytes and then
the four closing characters, and the digits `000` are lost. -/
theorem publishData_field_run_drops_epoch_digits :
    (publishData defaultTarget demoPublisher fieldVars 1690000000 createdEnv 1 []).map
        (fun o => (decide (wire o = o.state.composed),
          decide (wire o = o.state.composed.take 749 ++ "\x7d]\x7d\x7d".toList),
          o.state.composed.drop 749))
      = some (false, true, "000\x7d]\x7d\x7d".toList) := by
  decide!

/-- C4: in the connected run on `fieldVars` with the default 750-byte buffer the
fill level reaches 753: the last record starts at 703 used bytes, which passes the
test against 47, and its closing characters are written at offsets 749 to 752. -/
theorem publishData_field_run_overfills_buffer :
    defaultTarget.bufferSize = 750
      ∧ (publishData defaultTarget demoPublisher fieldVars 1690000000 createdEnv 1 []).map
          (fun o => o.state.peak) = some 753 := by
  refine ⟨rfl, ?_⟩
  decide!

/-! ## The header block -/

/-- C5: in the connected run on TEMP = 23.5, HUM = 60.2 the bytes on the wire are the
request line and the five header lines, and the JSON opening follows the line break
of the host line at once: the sequence CR LF CR LF occurs nowhere. -/
theorem publishData_demo_has_no_blank_line :
    (publishData defaultTarget demoPublisher demoVars 1690000000 createdEnv 1 []).map wire
        = some ("POST http://iotplotter.com/api/v2/feed/123456789012345678 HTTP/1.1\r\n".toList
            ++ "Connection: Close\r\n".toList
            ++ "api-key: 0123456789abcdef0123456789abcdef01234567\r\n".toList
            ++ "Content-Type: application/x-www-form-urlencoded\r\n".toList
            ++ "Content-Length: 99\r\n".toList
            ++ "Host: iotplotter.com\r\n".toList
            ++ demoBody)
      ∧ (publishData defaultTarget demoPublisher demoVars 1690000000 createdEnv 1 []).map
          (fun o => decide (List.IsInfix "\r\n\r\n".toList (wire o))) = some false := by
  decide!

/-! ## The JSON grammar -/

/-- C6 (counterexample): for TEMP = 23.5, HUM = 60.2 at epoch 1690000000 the bytes printed
carry a blank between the comma and the epoch key of each record, so they are not the
string of the claim, which has none. -/
theorem printSensorDataJSON_demo_differs_from_claimed :
    printSensorDataJSON demoVars 1690000000 = demoBody
      ∧ printSensorDataJSON demoVars 1690000000 ≠
        ("\x7b\"data\":\x7b\"TEMP\":[\x7b\"value\":23.5,\"epoch\":1690000000\x7d],"
          ++ "\"HUM\":[\x7b\"value\":60.2,\"epoch\":1690000000\x7d]\x7d\x7d").toList := by
  decide!

/-- With the quote that ends the opening tag put in front, the printing loop yields the
record fragments joined by commas. -/
theorem quote_printLoop_eq_intercalate (epoch : Nat) (vars : List Variable) (h : vars ≠ []) :
    "\"".toList ++ printSensorDataJSONLoop epoch vars
      = (",".toList).intercalate (vars.map (recordFragment epoch)) := by
  induction vars with
  | nil => exact absurd rfl h
  | cons v rest ih =>
    cases rest with
    | nil =>
      simp [printSensorDataJSONLoop, recordFragment, List.intercalate, JSONvalueTag, epochTag]
    | cons w rest2 =>
      have ih2 := ih (List.cons_ne_nil w rest2)
      simp only [List.map_cons] at ih2 ⊢
      rw [List.intercalate, List.intersperse_cons_cons, List.flatten_cons, List.flatten_cons,
        ← List.intercalate, ← ih2]
      simp [printSensorDataJSONLoop, recordFragment, JSONvalueTag, epochTag]

/-- C6 (amended): for every non-empty payload the bytes `printSensorDataJSON` prints are the
opening, the records in input order joined by one comma, and the closing, each record with
a blank between the comma and the epoch key. -/
theorem printSensorDataJSON_eq_jsonGrammar (vars : List Variable) (epoch : Nat)
    (h : vars ≠ []) : printSensorDataJSON vars epoch = jsonGrammar vars epoch := by
  have key := quote_printLoop_eq_intercalate epoch vars h
  unfold printSensorDataJSON jsonGrammar
  rw [← key]
  simp [samplingFeatureTag]

/-- C6 (witness): the amended statement at the payload TEMP = 23.5, HUM = 60.2. -/
theorem printSensorDataJSON_eq_jsonGrammar_witness :
    demoVars ≠ [] ∧ printSensorDataJSON demoVars 1690000000 = jsonGrammar demoVars 1690000000 :=
  ⟨by decide, printSensorDataJSON_eq_jsonGrammar demoVars 1690000000 (by decide)⟩

/-! ## The wait loop -/

/-- Under an advancing clock the wait loop returns once its tests can reach the
10000-th: the `k`-th test sees at least `k` elapsed milliseconds. -/
theorem waitLoop_returns (e : Env) (hclk : ClockAdvances e) :
    ∀ (fuel k : Nat), k ≤ elapsedAt e k → 10000 < k + fuel → 0 < fuel →
      ∃ n, waitLoop e fuel k = some n := by
  intro fuel
  induction fuel with
  | zero =>
    intro k _ _ h0
    exact absurd h0 (Nat.lt_irrefl 0)
  | succ fuel ih =>
    intro k hk hf _
    unfold waitLoop
    by_cases hc : elapsedAt e k < 10000 ∧ e.available k < 12
    · rw [if_pos hc]
      have hstep := hclk k hc.1
      exact ih (k + 1) (by omega) (by omega) (by omega)
    · rw [if_neg hc]
      exact ⟨k, rfl⟩

/-- When the wait loop returns, its last test failed: 10000 ms had elapsed or 12 bytes
were available. -/
theorem waitLoop_exit (e : Env) :
    ∀ (fuel k n : Nat), waitLoop e fuel k = some n →
      ¬ (elapsedAt e n < 10000 ∧ e.available n < 12) := by
  intro fuel
  induction fuel with
  | zero => intro k n h; simp [waitLoop] at h
  | succ fuel ih =>
    intro k n h
    unfold waitLoop at h
    by_cases hc : elapsedAt e k < 10000 ∧ e.available k < 12
    · rw [if_pos hc] at h
      exact ih (k + 1) n h
    · rw [if_neg hc] at h
      have hk : k = n := by simpa using h
      rw [← hk]
      exact hc

/-- With `start` read as 0 the elapsed time is the reading itself, as a 32-bit value. -/
theorem elapsed_zero_start (now : Nat) : elapsed 0 now = now % 4294967296 := by
  unfold elapsed
  rw [Nat.zero_mod, Nat.sub_zero, Nat.add_mod_right, Nat.mod_mod]

/-- The advancing-clock condition holds for a clock that gains 10 ms per reading. -/
theorem clockAdvances_of_ten_ms (e : Env) (h : ∀ k, e.millis k = 10 * k) : ClockAdvances e := by
  intro k hk
  unfold elapsedAt at hk ⊢
  rw [h 0, h (k + 1), Nat.mul_zero, elapsed_zero_start] at hk
  rw [h 0, h (k + 1), h (k + 1 + 1), Nat.mul_zero, elapsed_zero_start, elapsed_zero_start]
  omega

/-- A connected run whose wait loop returns `idles` yields the outcome built from the
composed request and the bytes read. -/
theorem publishData_of_waitLoop (t : Target) (p : Publisher) (vars : List Variable) (epoch : Nat)
    (e : Env) (fuel : Nat) (tx0 : List Char) (idles : Nat) (hc : e.connect = true)
    (hw : waitLoop e fuel 0 = some idles) :
    publishData t p vars epoch e fuel tx0
      = some ⟨responseCodeOf (readBytes e (composeRequest t p vars epoch (initState tx0))).1
          (readBytes e (composeRequest t p vars epoch (initState tx0))).2.tempBuffer e.stack,
        (readBytes e (composeRequest t p vars epoch (initState tx0))).2, idles,
        (readBytes e (composeRequest t p vars epoch (initState tx0))).1⟩ := by
  simp [publishData, hc, hw]

/-! ## Status digits -/

/-- The character of a decimal digit is no terminator, blank or sign; it is a digit and
its code minus 48 is the digit. -/
theorem digitChar_facts (d : Nat) (h : d < 10) :
    (digitChar d != NUL) = true ∧ isSpaceC (digitChar d) = false ∧ digitChar d ≠ '-'
      ∧ digitChar d ≠ '+' ∧ isDigitC (digitChar d) = true ∧ (digitChar d).toNat - 48 = d := by
  interval_cases d <;> decide

/-- The digit loop of `atoi` stops at a string that does not start with a digit. -/
theorem atoiDigits_stop (s : List Char) (acc : Nat)
    (h : ∀ c, s.head? = some c → isDigitC c = false) : atoiDigits s acc = acc := by
  cases s with
  | nil => rfl
  | cons c cs => simp [atoiDigits, h c rfl]

/-- When at least one byte was read, offsets 9 to 11 of `tempBuffer` hold the digits
`d1 d2 d3`, and the memory behind the three copied bytes does not start with a digit, the
status is `100 * d1 + 10 * d2 + d3`. -/
theorem responseCodeOf_status_digits (n : Nat) (temp stack : List Char) (d1 d2 d3 : Nat)
    (hn : 0 < n) (h1 : d1 < 10) (h2 : d2 < 10) (h3 : d3 < 10)
    (e9 : temp.getD 9 NUL = digitChar d1) (e10 : temp.getD 10 NUL = digitChar d2)
    (e11 : temp.getD 11 NUL = digitChar d3)
    (hs : ∀ c, stack.head? = some c → isDigitC c = false) :
    responseCodeOf n temp stack = 100 * d1 + 10 * d2 + d3 := by
  obtain ⟨a1, b1, c1, p1, g1, v1⟩ := digitChar_facts d1 h1
  obtain ⟨a2, -, -, -, g2, v2⟩ := digitChar_facts d2 h2
  obtain ⟨a3, -, -, -, g3, v3⟩ := digitChar_facts d3 h3
  have hstop : ∀ acc, atoiDigits (cstr stack) acc = acc := by
    intro acc
    apply atoiDigits_stop
    intro c hc
    cases stack with
    | nil => simp [cstr] at hc
    | cons x xs =>
      by_cases hx : (x != NUL) = true
      · have : cstr (x :: xs) = x :: cstr xs := by simp [cstr, List.takeWhile, hx]
        rw [this] at hc
        have hxc : x = c := by simpa using hc
        exact hxc ▸ hs x rfl
      · have : cstr (x :: xs) = [] := by simp [cstr, List.takeWhile, hx]
        rw [this] at hc
        simp at hc
  have hc : cstr ([digitChar d1, digitChar d2, digitChar d3] ++ stack)
      = digitChar d1 :: digitChar d2 :: digitChar d3 :: cstr stack := by
    simp [cstr, List.takeWhile, a1, a2, a3]
  unfold responseCodeOf
  rw [if_pos hn, e9, e10, e11]
  simp only [hc, atoi, List.dropWhile, b1, p1, c1, if_false, atoiDigits, g1, g2, g3, if_true,
    v1, v2, v3, hstop]
  unfold toInt16
  push_cast
  omega

/-! ## The status returned -/

/-- C7: on the response `HTTP/1.1 201 Created` the call returns 201 when the byte behind
the three copied digits is zero, and 2017 when that byte, which the function never
writes, holds the digit `7`. -/
theorem publishData_created_reads_past_status_digits :
    (publishData defaultTarget demoPublisher demoVars 1690000000 createdEnv 1 []).map
        (fun o => o.responseCode) = some 201
      ∧ (publishData defaultTarget demoPublisher demoVars 1690000000 createdDirtyEnv 1 []).map
        (fun o => o.responseCode) = some 2017 := by
  decide!

/-- C8 (counterexample): with a transport that reports 5 available bytes at every test the
wait runs out after 999 idles, the five bytes `HTTP/` are read, and the value returned
is 0, not 504. -/
theorem publishData_partial_response_returns_0 :
    (partialEnv.available = fun _ => 5)
      ∧ (publishData defaultTarget demoPublisher demoVars 1690000000 partialEnv 1000 []).map
          (fun o => (o.responseCode, o.did_respond, o.idles)) = some (0, 5, 999) := by
  refine ⟨rfl, ?_⟩
  decide!

/-- C8 (amended): in every connected run in which the transport reports fewer than 12
available bytes at every test and delivers no byte to the read that follows, the wait
ends only when 10000 ms have elapsed and the value returned is 504. -/
theorem publishData_silent_wait_returns_504 (t : Target) (p : Publisher) (vars : List Variable)
    (epoch : Nat) (e : Env) (fuel : Nat) (tx0 : List Char) (hc : e.connect = true)
    (hclk : ClockAdvances e) (hf : 10000 < fuel) (hav : ∀ k, e.available k < 12)
    (hr : e.incoming = []) :
    ∃ o, publishData t p vars epoch e fuel tx0 = some o ∧ o.responseCode = 504
      ∧ 10000 ≤ elapsedAt e o.idles := by
  obtain ⟨n, hn⟩ := waitLoop_returns e hclk fuel 0 (Nat.zero_le _) (by omega) (by omega)
  refine ⟨_, publishData_of_waitLoop t p vars epoch e fuel tx0 n hc hn, ?_, ?_⟩
  · simp [readBytes, hr, responseCodeOf]
  · have hx := waitLoop_exit e fuel 0 n hn
    have := hav n
    show 10000 ≤ elapsedAt e n
    by_contra hlt
    exact hx ⟨by omega, this⟩

/-- C8 (witness): the amended statement at the transport that never delivers a byte. -/
theorem publishData_silent_wait_returns_504_witness :
    silentEnv.connect = true ∧ ClockAdvances silentEnv ∧ 10000 < 10001
      ∧ (∀ k, silentEnv.available k < 12) ∧ silentEnv.incoming = []
      ∧ ∃ o, publishData defaultTarget demoPublisher demoVars 1690000000 silentEnv 10001 [] = some o
          ∧ o.responseCode = 504 ∧ 10000 ≤ elapsedAt silentEnv o.idles :=
  ⟨rfl, clockAdvances_of_ten_ms silentEnv (fun _ => rfl), by decide, fun _ => Nat.zero_lt_succ 11, rfl,
    publishData_silent_wait_returns_504 defaultTarget demoPublisher demoVars 1690000000 silentEnv
      10001 [] rfl (clockAdvances_of_ten_ms silentEnv (fun _ => rfl)) (by decide) (fun _ => Nat.zero_lt_succ 11) rfl⟩

/-- C9: every connected run that reads zero response bytes returns, and the value
returned is 504, whatever the payload, the feed id and the API key. -/
theorem publishData_zero_bytes_returns_504 (t : Target) (p : Publisher) (vars : List Variable)
    (epoch : Nat) (e : Env) (fuel : Nat) (tx0 : List Char) (hc : e.connect = true)
    (hclk : ClockAdvances e) (hf : 10000 < fuel) (hr : e.incoming = []) :
    ∃ o, publishData t p vars epoch e fuel tx0 = some o ∧ o.did_respond = 0
      ∧ o.responseCode = 504 := by
  obtain ⟨n, hn⟩ := waitLoop_returns e hclk fuel 0 (Nat.zero_le _) (by omega) (by omega)
  refine ⟨_, publishData_of_waitLoop t p vars epoch e fuel tx0 n hc hn, ?_, ?_⟩
  · simp [readBytes, hr]
  · simp [readBytes, hr, responseCodeOf]

/-- C9 (witness): the statement at the example payload and the silent transport. -/
theorem publishData_zero_bytes_returns_504_witness :
    silentEnv.connect = true ∧ ClockAdvances silentEnv ∧ 10000 < 10001 ∧ silentEnv.incoming = []
      ∧ ∃ o, publishData defaultTarget demoPublisher demoVars 1690000000 silentEnv 10001 [] = some o
          ∧ o.did_respond = 0 ∧ o.responseCode = 504 :=
  ⟨rfl, clockAdvances_of_ten_ms silentEnv (fun _ => rfl), by decide, rfl,
    publishData_zero_bytes_returns_504 defaultTarget demoPublisher demoVars 1690000000 silentEnv
      10001 [] rfl (clockAdvances_of_ten_ms silentEnv (fun _ => rfl)) (by decide) rfl⟩

/-- C10 (counterexample): the value returned when the connect fails, 504, is the value
returned by a connected run that receives no response. -/
theorem publishData_refused_returns_timeout_code :
    (publishData defaultTarget demoPublisher demoVars 1690000000 refusedEnv 0 []).map
        (fun o => o.responseCode) = some 504
      ∧ (publishData defaultTarget demoPublisher demoVars 1690000000 silentEnv 1000 []).map
        (fun o => o.responseCode) = some 504 := by
  decide!

/-- C10 (amended): when the connect fails the call returns 504, the same value as the
response-timeout sentinel. -/
theorem publishData_connect_failure_returns_504 (t : Target) (p : Publisher)
    (vars : List Variable) (epoch : Nat) (e : Env) (fuel : Nat) (tx0 : List Char)
    (hc : e.connect = false) :
    (publishData t p vars epoch e fuel tx0).map (fun o => o.responseCode) = some 504 := by
  simp [publishData, hc, responseCodeOf]

/-- C10 (witness): the amended statement at the transport whose connect fails. -/
theorem publishData_connect_failure_returns_504_witness :
    refusedEnv.connect = false
      ∧ (publishData defaultTarget demoPublisher demoVars 1690000000 refusedEnv 0 []).map
          (fun o => o.responseCode) = some 504 :=
  ⟨rfl, publishData_connect_failure_returns_504 defaultTarget demoPublisher demoVars 1690000000
    refusedEnv 0 [] rfl⟩

/-! ## A failed connect -/

/-- C11: when the connect fails the call returns at once and composes nothing: the
transmit buffer holds what it held at entry, no chunk was handed to the transport, no
token was appended, and no response byte was read into `tempBuffer`. -/
theorem publishData_connect_failure_composes_nothing (t : Target) (p : Publisher)
    (vars : List Variable) (epoch : Nat) (e : Env) (fuel : Nat) (tx0 : List Char)
    (hc : e.connect = false) :
    ∃ o, publishData t p vars epoch e fuel tx0 = some o ∧ o.state.txBuffer = tx0
      ∧ o.state.sent = [] ∧ o.state.composed = [] ∧ o.did_respond = 0
      ∧ o.state.tempBuffer = List.replicate 37 NUL ∧ o.idles = 0 := by
  refine ⟨⟨504, initState tx0, 0, 0⟩, ?_, rfl, rfl, rfl, rfl, rfl, rfl⟩
  simp [publishData, hc, responseCodeOf]

/-- C11 (witness): the statement at a transport whose connect fails, with the buffer
holding `abc` at entry. -/
theorem publishData_connect_failure_composes_nothing_witness :
    refusedEnv.connect = false
      ∧ ∃ o, publishData defaultTarget demoPublisher demoVars 1690000000 refusedEnv 0
            "abc".toList = some o ∧ o.state.txBuffer = "abc".toList
          ∧ o.state.sent = [] ∧ o.state.composed = [] ∧ o.did_respond = 0
          ∧ o.state.tempBuffer = List.replicate 37 NUL ∧ o.idles = 0 :=
  ⟨rfl, publishData_connect_failure_composes_nothing defaultTarget demoPublisher demoVars
    1690000000 refusedEnv 0 "abc".toList rfl⟩

/-! ## The formula of the size estimate -/

/-- The loop of `calculateJsonSize` adds, modulo 2^16, the cost of each record and two
bytes for each record but the last. -/
theorem calculateJsonSizeLoop_formula :
    ∀ (vars : List Variable) (j : Nat), vars ≠ [] →
      calculateJsonSizeLoop vars j % 65536
        = (j + (vars.map (fun v => v.varCode.length + 12 + v.valueString.length + 10 + 10 + 3)).sum
            + 2 * (vars.length - 1)) % 65536 := by
  intro vars
  induction vars with
  | nil => intro j h; exact absurd rfl h
  | cons v rest ih =>
    intro j _
    cases rest with
    | nil =>
      simp only [calculateJsonSizeLoop, ne_eq, not_true_eq_false, ite_false, List.map_cons,
        List.map_nil, List.sum_cons, List.sum_nil, List.length_cons, List.length_nil]
      omega
    | cons w rest2 =>
      rw [calculateJsonSizeLoop.eq_def]
      simp only [ne_eq, reduceCtorEq, not_false_eq_true, ite_true]
      rw [ih _ (List.cons_ne_nil w rest2)]
      simp only [List.map_cons, List.sum_cons, List.length_cons]
      omega

/-- C14: for a payload of k ≥ 1 records `calculateJsonSize` returns
10 + Σ (len(name) + 12 + len(value) + 10 + 10 + 3) + 2 (k - 1) + 2, taken in 16 bits;
it is a function of the payload alone. -/
theorem calculateJsonSize_formula (vars : List Variable) (h : vars ≠ []) :
    calculateJsonSize vars
      = (10 + (vars.map (fun v => v.varCode.length + 12 + v.valueString.length + 10 + 10 + 3)).sum
          + 2 * (vars.length - 1) + 2) % 65536 := by
  have key := calculateJsonSizeLoop_formula vars 10 h
  unfold calculateJsonSize
  omega

/-- C14 (witness): the formula at the payload TEMP = 23.5, HUM = 60.2, where it gives 99. -/
theorem calculateJsonSize_formula_witness :
    demoVars ≠ []
      ∧ calculateJsonSize demoVars
        = (10 + (demoVars.map
              (fun v => v.varCode.length + 12 + v.valueString.length + 10 + 10 + 3)).sum
            + 2 * (demoVars.length - 1) + 2) % 65536 :=
  ⟨by decide, calculateJsonSize_formula demoVars (by decide)⟩

/-! ## The printed request -/

/-- C15: `printIoTPlotterRequest` prints the request line, the five header lines with
the decimal `calculateJsonSize()` as content length, the blank line, and then the bytes
of `printSensorDataJSON`. -/
theorem printIoTPlotterRequest_bytes (p : Publisher) (vars : List Variable) (epoch : Nat) :
    printIoTPlotterRequest p vars epoch
      = "POST http://iotplotter.com/api/v2/feed/".toList ++ p.feedID
        ++ " HTTP/1.1\r\nConnection: Close\r\napi-key: ".toList ++ p.registrationToken
        ++ "\r\nContent-Type: application/x-www-form-urlencoded\r\nContent-Length: ".toList
        ++ toDecimal (calculateJsonSize vars)
        ++ "\r\nHost: iotplotter.com\r\n\r\n".toList ++ printSensorDataJSON vars epoch := by
  simp only [printIoTPlotterRequest, List.append_assoc]
  rfl

/-! ## The thresholds -/

/-- C17: the record groups of SoilMoisture = 31.25 and of a record with a 36-byte name
and a 36-byte value, at epoch 1690000000, are tested against 47 free bytes and append
53 and 108 bytes. -/
theorem recordGroups_exceed_threshold :
    (recordGroups defaultTarget 1690000000 [soilVar, wideVar]).map
        (fun g => (g.threshold, (g.appends (initState [])).txBuffer.length))
      = [(47, 53), (47, 108)] := by
  decide!

/-! ## The bound of the wait -/

/-- Under an advancing clock the wait loop returns after at most 10000 idles. -/
theorem waitLoop_returns_bounded (e : Env) (hclk : ClockAdvances e) :
    ∀ (fuel k : Nat), k ≤ elapsedAt e k → k ≤ 10000 → 10000 < k + fuel → 0 < fuel →
      ∃ n, waitLoop e fuel k = some n ∧ n ≤ 10000 := by
  intro fuel
  induction fuel with
  | zero =>
    intro k _ _ _ h0
    exact absurd h0 (Nat.lt_irrefl 0)
  | succ fuel ih =>
    intro k hk hk2 hf _
    unfold waitLoop
    by_cases hc : elapsedAt e k < 10000 ∧ e.available k < 12
    · rw [if_pos hc]
      have hstep := hclk k hc.1
      exact ih (k + 1) (by omega) (by omega) (by omega) (by omega)
    · rw [if_neg hc]
      exact ⟨k, rfl, hk2⟩

/-- The wait loop does not idle when its first test finds 12 bytes available. -/
theorem waitLoop_ready (e : Env) (fuel n : Nat) (h : 12 ≤ e.available 0)
    (hw : waitLoop e fuel 0 = some n) : n = 0 := by
  cases fuel with
  | zero => simp [waitLoop] at hw
  | succ f =>
    unfold waitLoop at hw
    have hc : ¬ (elapsedAt e 0 < 10000 ∧ e.available 0 < 12) := by omega
    rw [if_neg hc] at hw
    exact (Option.some.inj hw).symm

/-- C19: under a clock that every idle advances, the wait loop of a connected run ends
after at most 10000 idles; at its exit 12 bytes are available or 10000 ms have elapsed
since the final flush; and it does not idle when 12 bytes are available at once. -/
theorem publishData_wait_is_bounded (t : Target) (p : Publisher) (vars : List Variable)
    (epoch : Nat) (e : Env) (fuel : Nat) (tx0 : List Char) (hc : e.connect = true)
    (hclk : ClockAdvances e) (hf : 10000 < fuel) :
    ∃ o, publishData t p vars epoch e fuel tx0 = some o ∧ o.idles ≤ 10000
      ∧ (12 ≤ e.available o.idles ∨ 10000 ≤ elapsedAt e o.idles)
      ∧ (12 ≤ e.available 0 → o.idles = 0) := by
  obtain ⟨n, hn, hle⟩ :=
    waitLoop_returns_bounded e hclk fuel 0 (Nat.zero_le _) (by omega) (by omega) (by omega)
  refine ⟨_, publishData_of_waitLoop t p vars epoch e fuel tx0 n hc hn, hle, ?_, ?_⟩
  · have hx := waitLoop_exit e fuel 0 n hn
    show 12 ≤ e.available n ∨ 10000 ≤ elapsedAt e n
    by_cases h12 : 12 ≤ e.available n
    · exact Or.inl h12
    · exact Or.inr (by
        by_contra hlt
        exact hx ⟨by omega, by omega⟩)
  · intro h0
    exact waitLoop_ready e fuel n h0 hn

/-- C19 (witness): the statement at the transport that never delivers a byte. -/
theorem publishData_wait_is_bounded_witness :
    silentEnv.connect = true ∧ ClockAdvances silentEnv ∧ 10000 < 10001
      ∧ ∃ o, publishData defaultTarget demoPublisher demoVars 1690000000 silentEnv 10001 []
            = some o ∧ o.idles ≤ 10000
          ∧ (12 ≤ silentEnv.available o.idles ∨ 10000 ≤ elapsedAt silentEnv o.idles)
          ∧ (12 ≤ silentEnv.available 0 → o.idles = 0) :=
  ⟨rfl, clockAdvances_of_ten_ms silentEnv (fun _ => rfl), by decide,
    publishData_wait_is_bounded defaultTarget demoPublisher demoVars 1690000000 silentEnv
      10001 [] rfl (clockAdvances_of_ten_ms silentEnv (fun _ => rfl)) (by decide)⟩

/-! ## The epoch in the body sent -/

/-- C20: for the single record TEMP = 23.5, within every threshold, the body sent differs
from the bytes printed: with a 32-bit `int` the epoch 3000000000 is sent as
`-1294967296`, and with a 16-bit `int` the epoch 1690000000 is sent as `23168`. -/
theorem publishData_solo_epoch_passes_through_int :
    (publishData defaultTarget demoPublisher soloVars 3000000000 createdEnv 1 []).map wire
        = some (headerBlock demoPublisher 55
            ++ "\x7b\"data\":\x7b\"TEMP\":[\x7b\"value\":23.5, \"epoch\":-1294967296\x7d]\x7d\x7d".toList)
      ∧ printSensorDataJSON soloVars 3000000000
        = "\x7b\"data\":\x7b\"TEMP\":[\x7b\"value\":23.5, \"epoch\":3000000000\x7d]\x7d\x7d".toList
      ∧ (publishData smallIntTarget demoPublisher soloVars 1690000000 createdEnv 1 []).map wire
        = some (headerBlock demoPublisher 55
            ++ "\x7b\"data\":\x7b\"TEMP\":[\x7b\"value\":23.5, \"epoch\":23168\x7d]\x7d\x7d".toList)
      ∧ printSensorDataJSON soloVars 1690000000 = soloBody := by
  decide!

/-! ## Status bytes that are no number -/

/-- The digit loop of `atoi` reads the same value from an array as from its C string. -/
theorem atoiDigits_cstr : ∀ (l : List Char) (acc : Nat),
    atoiDigits (cstr l) acc = atoiDigits l acc := by
  intro l
  induction l with
  | nil => intro acc; rfl
  | cons c cs ih =>
    intro acc
    by_cases hc : (c != NUL) = true
    · have e1 : cstr (c :: cs) = c :: cstr cs := by simp [cstr, List.takeWhile, hc]
      rw [e1]
      simp only [atoiDigits]
      rw [ih]
    · have e1 : cstr (c :: cs) = [] := by simp [cstr, List.takeWhile, hc]
      have e2 : c = NUL := by simpa using hc
      rw [e1, e2]
      rfl

/-- A leading white-space byte is skipped by `atoi`. -/
theorem atoi_cons_space (c : Char) (l : List Char) (h : isSpaceC c = true) :
    atoi (c :: l) = atoi l := by
  simp [atoi, List.dropWhile, h]

/-- The value of `atoi` on a string whose first byte is no white space. -/
theorem atoi_cons_nonspace (c : Char) (l : List Char) (h : isSpaceC c = false) :
    atoi (c :: l)
      = if c = '-' then - (atoiDigits l 0 : Int)
        else if c = '+' then (atoiDigits l 0 : Int) else (atoiDigits (c :: l) 0 : Int) := by
  simp [atoi, List.dropWhile, h]

/-- The function `atoi` reads the same value from an array as from its C string: it
stops at the terminator by itself. -/
theorem atoi_cstr : ∀ (l : List Char), atoi (cstr l) = atoi l := by
  intro l
  induction l with
  | nil => rfl
  | cons c cs ih =>
    by_cases hc : (c != NUL) = true
    · have e1 : cstr (c :: cs) = c :: cstr cs := by simp [cstr, List.takeWhile, hc]
      rw [e1]
      by_cases hs : isSpaceC c = true
      · rw [atoi_cons_space c _ hs, atoi_cons_space c _ hs, ih]
      · have hs2 : isSpaceC c = false := by simpa using hs
        rw [atoi_cons_nonspace c _ hs2, atoi_cons_nonspace c _ hs2, atoiDigits_cstr cs 0,
          ← e1, atoiDigits_cstr (c :: cs) 0]
    · have e1 : cstr (c :: cs) = [] := by simp [cstr, List.takeWhile, hc]
      have e2 : c = NUL := by simpa using hc
      rw [e1, e2]
      rfl

/-- When the bytes `l` cannot start a number, `atoi` returns 0 whatever follows them. -/
theorem atoi_nonNumericStart : ∀ (l r : List Char), nonNumericStart l = true →
    atoi (l ++ r) = 0 := by
  intro l
  induction l with
  | nil => intro r h; simp [nonNumericStart] at h
  | cons c cs ih =>
    intro r h
    by_cases hs : isSpaceC c = true
    · have h2 : nonNumericStart cs = true := by
        simpa [nonNumericStart, List.dropWhile, hs] using h
      rw [List.cons_append, atoi_cons_space c _ hs]
      exact ih r h2
    · have hs2 : isSpaceC c = false := by simpa using hs
      rw [List.cons_append, atoi_cons_nonspace c _ hs2]
      simp only [nonNumericStart, List.dropWhile, hs2] at h
      by_cases hsign : c = '-' ∨ c = '+'
      · rw [if_pos hsign] at h
        cases cs with
        | nil => simp at h
        | cons d ds =>
          have hd : isDigitC d = false := by simpa using h
          have hz : atoiDigits (d :: ds ++ r) 0 = 0 := by simp [atoiDigits, hd]
          rcases hsign with h1 | h1
          · rw [if_pos h1, hz]
            rfl
          · rw [if_neg (by rw [h1]; decide), if_pos h1, hz]
            rfl
      · rw [if_neg hsign] at h
        have hd : isDigitC c = false := by simpa using h
        have h1 : c ≠ '-' := fun hh => hsign (Or.inl hh)
        have h2 : c ≠ '+' := fun hh => hsign (Or.inr hh)
        rw [if_neg h1, if_neg h2]
        simp [atoiDigits, hd]

/-- After a read of 12 bytes, offset `i < 12` of `tempBuffer` holds the `i`-th byte received. -/
theorem readBytes_getD (e : Env) (s : TxState) (i : Nat) (hi : i < 12)
    (hlen : 12 ≤ e.incoming.length) :
    (readBytes e s).1 = 12 ∧ (readBytes e s).2.tempBuffer.getD i NUL = e.incoming.getD i NUL := by
  have hl : (e.incoming.take 12).length = 12 := by simp [List.length_take]; omega
  refine ⟨by simp only [readBytes]; exact hl, ?_⟩
  simp only [readBytes, List.getD_eq_getElem?_getD]
  rw [List.getElem?_append_left (by omega), List.getElem?_take_of_lt hi]

/-- When at least one byte was read and offsets 9 to 11 of `tempBuffer` cannot start a
number, the status is 0. -/
theorem responseCodeOf_nonNumeric (n : Nat) (temp stack : List Char) (hn : 0 < n)
    (hbad : nonNumericStart [temp.getD 9 NUL, temp.getD 10 NUL, temp.getD 11 NUL] = true) :
    responseCodeOf n temp stack = 0 := by
  unfold responseCodeOf
  rw [if_pos hn]
  show toInt16 (atoi (cstr ([temp.getD 9 NUL, temp.getD 10 NUL, temp.getD 11 NUL] ++ stack))) = 0
  rw [atoi_cstr, atoi_nonNumericStart _ _ hbad]
  rfl

/-- C12 (counterexample): on the response `HTTP/1.1  200 OK` the bytes at offsets 9 to 11
are a blank and `20`, not three decimal digits, and the value returned is 20. -/
theorem publishData_double_blank_returns_20 :
    (doubleBlankEnv.incoming.drop 9).take 3 = " 20".toList
      ∧ (publishData defaultTarget demoPublisher demoVars 1690000000 doubleBlankEnv 1 []).map
          (fun o => (o.did_respond, o.responseCode)) = some (12, 20) := by
  decide!

/-- C12 (amended): when 12 response bytes are read and the bytes at offsets 9 to 11 cannot
start a number (after white space and at most one sign, the next of them is no decimal
digit), the value returned is 0, whatever lies behind them in memory. -/
theorem publishData_non_numeric_status_returns_0 (t : Target) (p : Publisher)
    (vars : List Variable) (epoch : Nat) (e : Env) (fuel : Nat) (tx0 : List Char)
    (hc : e.connect = true) (hclk : ClockAdvances e) (hf : 10000 < fuel)
    (hlen : 12 ≤ e.incoming.length)
    (hbad : nonNumericStart
      [e.incoming.getD 9 NUL, e.incoming.getD 10 NUL, e.incoming.getD 11 NUL] = true) :
    ∃ o, publishData t p vars epoch e fuel tx0 = some o ∧ o.did_respond = 12
      ∧ o.responseCode = 0 := by
  obtain ⟨n, hn⟩ := waitLoop_returns e hclk fuel 0 (Nat.zero_le _) (by omega) (by omega)
  refine ⟨_, publishData_of_waitLoop t p vars epoch e fuel tx0 n hc hn, ?_, ?_⟩
  · exact (readBytes_getD e (composeRequest t p vars epoch (initState tx0)) 0 (by decide) hlen).1
  · show responseCodeOf _ _ _ = 0
    have h9 := readBytes_getD e (composeRequest t p vars epoch (initState tx0)) 9 (by decide) hlen
    have h10 := readBytes_getD e (composeRequest t p vars epoch (initState tx0)) 10 (by decide) hlen
    have h11 := readBytes_getD e (composeRequest t p vars epoch (initState tx0)) 11 (by decide) hlen
    apply responseCodeOf_nonNumeric
    · rw [h9.1]
      decide
    · rw [h9.2, h10.2, h11.2]
      exact hbad

/-- C12 (witness): the amended statement at the response `HTTP/1.1 ERR oops`, with the
digit `9` in memory behind the three copied bytes. -/
theorem publishData_non_numeric_status_returns_0_witness :
    garbledEnv.connect = true ∧ ClockAdvances garbledEnv ∧ 10000 < 10001
      ∧ 12 ≤ garbledEnv.incoming.length
      ∧ nonNumericStart [garbledEnv.incoming.getD 9 NUL, garbledEnv.incoming.getD 10 NUL,
          garbledEnv.incoming.getD 11 NUL] = true
      ∧ ∃ o, publishData defaultTarget demoPublisher demoVars 1690000000 garbledEnv 10001 []
            = some o ∧ o.did_respond = 12 ∧ o.responseCode = 0 :=
  ⟨rfl, clockAdvances_of_ten_ms garbledEnv (fun _ => rfl), by decide, by decide, by decide,
    publishData_non_numeric_status_returns_0 defaultTarget demoPublisher demoVars 1690000000
      garbledEnv 10001 [] rfl (clockAdvances_of_ten_ms garbledEnv (fun _ => rfl)) (by decide)
      (by decide) (by decide)⟩

/-! ## The order of the records -/

/-- Every character of a decimal rendering is a digit. -/
theorem toDecimalAux_digits : ∀ (fuel n : Nat) (c : Char),
    c ∈ toDecimalAux fuel n → isDigitC c = true := by
  intro fuel
  induction fuel with
  | zero => intro n c h; simp [toDecimalAux] at h
  | succ f ih =>
    intro n c h
    unfold toDecimalAux at h
    by_cases h10 : n < 10
    · rw [if_pos h10] at h
      have hc : c = digitChar n := by simpa using h
      rw [hc]
      exact (digitChar_facts n h10).2.2.2.2.1
    · rw [if_neg h10] at h
      rcases List.mem_append.mp h with h1 | h1
      · exact ih _ c h1
      · have hc : c = digitChar (n % 10) := by simpa using h1
        rw [hc]
        exact (digitChar_facts (n % 10) (Nat.mod_lt _ (by decide))).2.2.2.2.1

/-- A decimal rendering contains neither a comma nor a closing bracket. -/
theorem toDecimal_count_zero (n : Nat) :
    (toDecimal n).count ',' = 0 ∧ (toDecimal n).count ']' = 0 := by
  constructor
  · apply List.count_eq_zero.mpr
    intro h
    have := toDecimalAux_digits _ _ _ h
    revert this
    decide
  · apply List.count_eq_zero.mpr
    intro h
    have := toDecimalAux_digits _ _ _ h
    revert this
    decide

/-- C16 (counterexample): the JSON printed for the single record TEMP = 23.5 contains a
comma, the one before the epoch key; and for a name that contains `]` it contains two
closing brackets. -/
theorem printSensorDataJSON_solo_has_comma :
    ',' ∈ printSensorDataJSON soloVars 1690000000
      ∧ (printSensorDataJSON [⟨"T[0]".toList, "23.5".toList⟩] 1690000000).count ']' = 2 := by
  decide!

/-- C16 (amended): for a single record whose name and value contain neither `,` nor `]`,
the bytes printed are the opening, the name, the value tag, the value, the epoch tag, the
epoch digits and then `}]}}` at once; their only comma is the one of the epoch tag, so
no record separator occurs, and their only `]` is the one of that closing. -/
theorem printSensorDataJSON_single_record (v : Variable) (epoch : Nat)
    (hn : ∀ c ∈ v.varCode ++ v.valueString, c ≠ ',' ∧ c ≠ ']') :
    printSensorDataJSON [v] epoch
        = samplingFeatureTag ++ v.varCode ++ JSONvalueTag ++ v.valueString ++ epochTag
          ++ toDecimal epoch ++ "\x7d]\x7d\x7d".toList
      ∧ (printSensorDataJSON [v] epoch).count ',' = 1 ∧ epochTag.count ',' = 1
      ∧ (printSensorDataJSON [v] epoch).count ']' = 1 := by
  have hstruct : printSensorDataJSON [v] epoch
        = samplingFeatureTag ++ v.varCode ++ JSONvalueTag ++ v.valueString ++ epochTag
          ++ toDecimal epoch ++ "\x7d]\x7d\x7d".toList := by
    simp [printSensorDataJSON, printSensorDataJSONLoop]
  have n1 : v.varCode.count ',' = 0 :=
    List.count_eq_zero.mpr (fun h => (hn _ (List.mem_append_left _ h)).1 rfl)
  have n2 : v.varCode.count ']' = 0 :=
    List.count_eq_zero.mpr (fun h => (hn _ (List.mem_append_left _ h)).2 rfl)
  have v1 : v.valueString.count ',' = 0 :=
    List.count_eq_zero.mpr (fun h => (hn _ (List.mem_append_right _ h)).1 rfl)
  have v2 : v.valueString.count ']' = 0 :=
    List.count_eq_zero.mpr (fun h => (hn _ (List.mem_append_right _ h)).2 rfl)
  have d := toDecimal_count_zero epoch
  have c1 : samplingFeatureTag.count ',' = 0 := by decide
  have c2 : samplingFeatureTag.count ']' = 0 := by decide
  have c3 : JSONvalueTag.count ',' = 0 := by decide
  have c4 : JSONvalueTag.count ']' = 0 := by decide
  have c5 : epochTag.count ',' = 1 := by decide
  have c6 : epochTag.count ']' = 0 := by decide
  have c7 : ("\x7d]\x7d\x7d".toList).count ',' = 0 := by decide
  have c8 : ("\x7d]\x7d\x7d".toList).count ']' = 1 := by decide
  refine ⟨hstruct, ?_, c5, ?_⟩
  · rw [hstruct]
    simp only [List.count_append, n1, v1, d.1, c1, c3, c5, c7]
  · rw [hstruct]
    simp only [List.count_append, n2, v2, d.2, c2, c4, c6, c8]

/-- C16 (witness): the amended statement at the single record TEMP = 23.5. -/
theorem printSensorDataJSON_single_record_witness :
    (∀ c ∈ "TEMP".toList ++ "23.5".toList, c ≠ ',' ∧ c ≠ ']')
      ∧ printSensorDataJSON [⟨"TEMP".toList, "23.5".toList⟩] 1690000000
        = samplingFeatureTag ++ "TEMP".toList ++ JSONvalueTag ++ "23.5".toList ++ epochTag
          ++ toDecimal 1690000000 ++ "\x7d]\x7d\x7d".toList
      ∧ (printSensorDataJSON [⟨"TEMP".toList, "23.5".toList⟩] 1690000000).count ',' = 1
      ∧ epochTag.count ',' = 1
      ∧ (printSensorDataJSON [⟨"TEMP".toList, "23.5".toList⟩] 1690000000).count ']' = 1 :=
  ⟨by decide, printSensorDataJSON_single_record ⟨"TEMP".toList, "23.5".toList⟩ 1690000000
    (by decide)⟩

/-! ## The run as a sequence of groups -/

/-- The record loop is the run of the record groups. -/
theorem composeRecords_eq_runGroups (t : Target) (epoch : Nat) :
    ∀ (vars : List Variable) (s : TxState),
      composeRecords t epoch vars s = runGroups t (recordGroups t epoch vars) s := by
  intro vars
  induction vars with
  | nil => intro s; rfl
  | cons v rest ih =>
    intro s
    simp only [composeRecords, recordGroups, runGroups, List.foldl_cons]
    rw [ih]
    rfl

/-- Everything composed after the connect is the request line, then the run of the
header groups and the record groups, then the final flush. -/
theorem composeRequest_eq_runGroups (t : Target) (p : Publisher) (vars : List Variable)
    (epoch : Nat) (tx0 : List Char) :
    composeRequest t p vars epoch (initState tx0)
      = printTxBuffer (runGroups t (headerGroups t p vars ++ recordGroups t epoch vars)
          (requestLineAppends t p (initState []))) := by
  unfold composeRequest
  rw [composeRecords_eq_runGroups]
  simp only [runGroups, List.foldl_append]
  rfl

/-- C18: in the connected run on `fieldVars` the one chunk handed to the transport is
not a concatenation of whole token groups.  The seventeenth and last token group is the
record `SoilMoisture":[{"value":31.25, "epoch":1690000000}]}}`; the chunk is the first
sixteen token groups followed by `SoilMoisture":[{"value":31.25, "epoch":1690000}]}}`,
the record with its epoch cut short, and no run of consecutive token groups gives the
chunk. -/
theorem publishData_field_run_chunk_is_no_run_of_groups :
    (tokenGroups defaultTarget demoPublisher fieldVars 1690000000).drop 16
        = ["SoilMoisture\":[\x7b\"value\":31.25, \"epoch\":1690000000\x7d]\x7d\x7d".toList]
      ∧ (publishData defaultTarget demoPublisher fieldVars 1690000000 createdEnv 1 []).map
          (fun o => (o.state.sent,
            o.state.sent.map
              (isRunOfGroups (tokenGroups defaultTarget demoPublisher fieldVars 1690000000))))
        = some
          ([((tokenGroups defaultTarget demoPublisher fieldVars 1690000000).take 16).flatten
              ++ "SoilMoisture\":[\x7b\"value\":31.25, \"epoch\":1690000\x7d]\x7d\x7d".toList],
            [false]) := by
  decide!

/-- What a record leaves behind the array meets the next record that reaches the last
cell: in the connected run on `wideRunVars` the fifth record is cut at offset 749 and its
closing bytes are written at offsets 749 to 752, so the first chunk has 753 bytes; the
flush empties the array only, and the closing bytes of the twelfth record, written from
offset 749 on, run into the three bytes left at offsets 750 to 752, so the second chunk
has 756 bytes. -/
theorem publishData_wide_run_fills_array_twice :
    (publishData defaultTarget demoPublisher wideRunVars 1690000000 createdEnv 1 []).map
        (fun o => o.state.sent.map (fun chunk => (chunk.length, chunk.drop 749)))
      = some [(753, "\x7d],\"".toList), (756, "\x7d],\"]\x7d\x7d".toList)] := by
  decide!

/-! ## Runs without a cut token -/

/-- An append that has room loses no byte. -/
theorem conserved_snprintfAppend (t : Target) (tok : List Char) (s : TxState)
    (h : Conserved s) (hroom : s.txBuffer.length + tok.length < t.bufferSize) :
    Conserved (snprintfAppend t tok s)
      ∧ (snprintfAppend t tok s).txBuffer.length = s.txBuffer.length + tok.length
      ∧ (snprintfAppend t tok s).tempBuffer = s.tempBuffer := by
  have htake : tok.take (t.bufferSize - s.txBuffer.length - 1) = tok :=
    List.take_of_length_le (by omega)
  unfold Conserved at h ⊢
  simp only [snprintfAppend, htake, List.length_append]
  refine ⟨?_, trivial, trivial⟩
  rw [← List.append_assoc, h]

/-- An append through `snprintf` keeps the string inside the array. -/
theorem inside_snprintfAppend (t : Target) (tok : List Char) (s : TxState)
    (h : Inside t s) : Inside t (snprintfAppend t tok s) := by
  unfold Inside at h ⊢
  simp only [snprintfAppend, List.length_append, List.length_take]
  omega

/-- The append of the C string in `tempBuffer` keeps the string inside the array. -/
theorem inside_appendTemp (t : Target) (s : TxState) (h : Inside t s) :
    Inside t (appendTemp t s) :=
  inside_snprintfAppend t _ s h

/-- A byte put before the last cell of the array is not lost, lengthens the string by
one and keeps it inside the array. -/
theorem conserved_putAtEnd (t : Target) (c : Char) (s : TxState) (h : Conserved s)
    (hin : Inside t s) (hroom : s.txBuffer.length + 1 < t.bufferSize) :
    Conserved (putAtEnd t c s) ∧ Inside t (putAtEnd t c s)
      ∧ (putAtEnd t c s).txBuffer.length = s.txBuffer.length + 1 := by
  unfold Conserved at h ⊢
  unfold Inside at hin ⊢
  simp only [putAtEnd, if_pos hroom, List.length_append, List.length_cons, List.length_nil]
  refine ⟨?_, ?_, trivial⟩
  · rw [← List.append_assoc, h]
  · omega

/-- A flush loses no byte. -/
theorem conserved_printTxBuffer (s : TxState) (h : Conserved s) :
    Conserved (printTxBuffer s) := by
  unfold Conserved at h ⊢
  simp [printTxBuffer, h]

/-- The test of the free space loses no byte and keeps the string inside the array, and
after it the free space is at least the threshold, provided the whole buffer is that
large. -/
theorem conserved_flushIfBelow (t : Target) (n : Int) (s : TxState) (h : Conserved s)
    (hin : Inside t s) (hn : n ≤ (t.bufferSize : Int)) :
    Conserved (flushIfBelow t n s) ∧ Inside t (flushIfBelow t n s)
      ∧ ((flushIfBelow t n s).txBuffer.length : Int) + n ≤ (t.bufferSize : Int) := by
  unfold flushIfBelow
  by_cases hb : bufferFree t s < n
  · rw [if_pos hb]
    refine ⟨conserved_printTxBuffer s h, ?_, ?_⟩
    · unfold Inside at hin ⊢
      simp only [printTxBuffer, List.length_nil]
      omega
    · simp only [printTxBuffer, List.length_nil]
      omega
  · rw [if_neg hb]
    refine ⟨h, hin, ?_⟩
    unfold bufferFree at hb
    omega

/-- A run of groups that fit their thresholds loses no byte and keeps the string inside
the array. -/
theorem conserved_runGroups (t : Target) :
    ∀ (gs : List Group) (s : TxState),
      (∀ g ∈ gs, g.threshold ≤ (t.bufferSize : Int) ∧ Fits t g) → Conserved s → Inside t s →
      Conserved (runGroups t gs s) ∧ Inside t (runGroups t gs s) := by
  intro gs
  induction gs with
  | nil => intro s _ h hin; exact ⟨h, hin⟩
  | cons g gs ih =>
    intro s hall h hin
    obtain ⟨hthr, hfit⟩ := hall g (List.mem_cons_self _ _)
    obtain ⟨h1, hin1, hroom⟩ := conserved_flushIfBelow t g.threshold s h hin hthr
    have h2 : Conserved (runGroup t s g) ∧ Inside t (runGroup t s g) := hfit _ h1 hin1 hroom
    have := ih (runGroup t s g) (fun g2 hg2 => hall g2 (List.mem_cons_of_mem _ hg2)) h2.1 h2.2
    simpa [runGroups] using this

/-- The C string of bytes followed by a terminator is no longer than the bytes. -/
theorem cstr_append_NUL_length_le : ∀ (text rest : List Char),
    (cstr (text ++ NUL :: rest)).length ≤ text.length := by
  intro text
  induction text with
  | nil => intro rest; simp [cstr, List.takeWhile, NUL]
  | cons c cs ih =>
    intro rest
    by_cases hc : (c != NUL) = true
    · have e1 : cstr (c :: cs ++ NUL :: rest) = c :: cstr (cs ++ NUL :: rest) := by
        simp [cstr, List.takeWhile, hc]
      rw [e1]
      have := ih rest
      simp only [List.length_cons]
      omega
    · have e1 : cstr (c :: cs ++ NUL :: rest) = [] := by
        simp [cstr, List.takeWhile, hc]
      rw [e1]
      simp

/-- The C string of bytes without a terminator, followed by one, is the bytes. -/
theorem cstr_append_NUL : ∀ (text rest : List Char), NUL ∉ text →
    cstr (text ++ NUL :: rest) = text := by
  intro text
  induction text with
  | nil => intro rest _; simp [cstr, List.takeWhile, NUL]
  | cons c cs ih =>
    intro rest h
    have hc : (c != NUL) = true := by
      have : c ≠ NUL := fun hh => h (hh ▸ List.mem_cons_self _ _)
      simpa using this
    have e1 : cstr (c :: cs ++ NUL :: rest) = c :: cstr (cs ++ NUL :: rest) := by
      simp [cstr, List.takeWhile, hc]
    rw [e1, ih rest (fun hh => h (List.mem_cons_of_mem _ hh))]

/-- A decimal rendering contains no terminator. -/
theorem NUL_not_mem_toDecimal (n : Nat) : NUL ∉ toDecimal n := by
  intro h
  have := toDecimalAux_digits _ _ _ h
  revert this
  decide

/-- A number below 2^(w-1) passes unchanged through the `int` of `w` bits, and `itoa`
renders it like the unsigned printer. -/
theorem itoa_toInt_of_lt (w n : Nat) (h : n < 2 ^ (w - 1)) : itoa (toInt w n) = toDecimal n := by
  have h2 : 2 ^ (w - 1) ≤ 2 ^ w := Nat.pow_le_pow_right (by decide) (Nat.sub_le _ _)
  have hm : n % 2 ^ w = n := Nat.mod_eq_of_lt (by omega)
  simp [toInt, hm, h, itoa]

/-- A number below 10^(d+1) is rendered in at most `d + 1` characters. -/
theorem toDecimalAux_length_le (d : Nat) :
    ∀ (fuel n : Nat), n < 10 ^ (d + 1) → (toDecimalAux fuel n).length ≤ d + 1 := by
  induction d with
  | zero =>
    intro fuel n hn
    cases fuel with
    | zero => simp [toDecimalAux]
    | succ f =>
      have h10 : n < 10 := by simpa using hn
      simp [toDecimalAux, h10]
  | succ d ih =>
    intro fuel n hn
    cases fuel with
    | zero => simp [toDecimalAux]
    | succ f =>
      by_cases h10 : n < 10
      · simp [toDecimalAux, h10]
      · have e2 : 10 ^ (d + 1 + 1) = 10 ^ (d + 1) * 10 := Nat.pow_succ _ _
        have hq : n / 10 < 10 ^ (d + 1) := by
          rw [Nat.div_lt_iff_lt_mul (by decide)]
          omega
        have := ih f (n / 10) hq
        simp [toDecimalAux, h10]
        omega

/-- The content length, a 16-bit value, is rendered by `itoa` in at most 6 characters. -/
theorem itoa_size_length_le (w n : Nat) (hn : n < 65536) : (itoa (toInt w n)).length ≤ 6 := by
  have hbound : ∀ m, m < 100000 → (toDecimal m).length ≤ 5 :=
    fun m hm => toDecimalAux_length_le 4 (m + 1) m (by norm_num; omega)
  unfold toInt
  simp only []
  split
  · have hlt : n % 2 ^ w < 65536 := lt_of_le_of_lt (Nat.mod_le _ _) hn
    have := hbound _ (by omega : n % 2 ^ w < 100000)
    simp only [itoa]
    omega
  · rename_i hneg
    have hlt : n % 2 ^ w < 65536 := lt_of_le_of_lt (Nat.mod_le _ _) hn
    have hw : 2 ^ w ≤ 2 * (n % 2 ^ w) := by
      rcases Nat.eq_zero_or_pos w with h0 | hpos
      · subst h0
        simp at hneg
        exact absurd (Nat.mod_one n) hneg
      · have : 2 ^ w = 2 ^ (w - 1) * 2 := by
          rw [← Nat.pow_succ]
          congr 1
          omega
        omega
    have := hbound (2 ^ w - n % 2 ^ w - 1 + 1) (by omega)
    simp only [itoa, List.length_cons]
    omega

/-- The value `calculateJsonSize` returns is a 16-bit number. -/
theorem calculateJsonSize_lt (vars : List Variable) : calculateJsonSize vars < 65536 := by
  unfold calculateJsonSize
  exact Nat.mod_lt _ (by decide)

/-- A write into `tempBuffer` followed by the append of its C string loses no byte and
keeps the string inside the array when the text written has room. -/
theorem conserved_appendTemp_after_write (t : Target) (text : List Char) (s : TxState)
    (h : Conserved s) (hin : Inside t s)
    (hroom : s.txBuffer.length + text.length < t.bufferSize) :
    Conserved (appendTemp t { s with tempBuffer := strcpyInto s.tempBuffer text })
      ∧ Inside t (appendTemp t { s with tempBuffer := strcpyInto s.tempBuffer text })
      ∧ (appendTemp t { s with tempBuffer := strcpyInto s.tempBuffer text }).txBuffer.length
          ≤ s.txBuffer.length + text.length := by
  have hlen := cstr_append_NUL_length_le text (s.tempBuffer.drop (text.length + 1))
  have hs2 : Conserved { s with tempBuffer := strcpyInto s.tempBuffer text } := h
  have hin2 : Inside t { s with tempBuffer := strcpyInto s.tempBuffer text } := hin
  have key := conserved_snprintfAppend t (cstr (strcpyInto s.tempBuffer text))
    { s with tempBuffer := strcpyInto s.tempBuffer text } hs2
    (by show s.txBuffer.length + (cstr (strcpyInto s.tempBuffer text)).length < _
        unfold strcpyInto; omega)
  refine ⟨key.1, inside_appendTemp t _ hin2, ?_⟩
  have := key.2.1
  unfold appendTemp
  rw [this]
  show s.txBuffer.length + (cstr (strcpyInto s.tempBuffer text)).length ≤ _
  unfold strcpyInto
  omega

/-- Every header group fits its threshold when the API key has at most 43 bytes. -/
theorem fits_headerGroups (t : Target) (p : Publisher) (vars : List Variable)
    (hkey : p.registrationToken.length ≤ 43) :
    ∀ g ∈ headerGroups t p vars, g.threshold ≤ 55 ∧ Fits t g := by
  intro g hg
  simp only [headerGroups, List.mem_cons, List.mem_singleton, List.not_mem_nil, or_false] at hg
  rcases hg with h | h | h | h | h | h <;> subst h <;> refine ⟨by norm_num, ?_⟩ <;>
    intro s hs hin hroom <;> simp only [] at hroom ⊢
  · have hl : ("\r\nConnection: Close".toList).length = 19 := rfl
    exact ⟨(conserved_snprintfAppend t _ s hs (by omega)).1, inside_snprintfAppend t _ s hin⟩
  · have hl : apiHeader.length = 11 := rfl
    have h1 := conserved_snprintfAppend t apiHeader s hs (by omega)
    exact ⟨(conserved_snprintfAppend t _ _ h1.1 (by rw [h1.2.1]; omega)).1,
      inside_snprintfAppend t _ _ (inside_snprintfAppend t _ s hin)⟩
  · have hl : contentTypeHeader.length = 49 := rfl
    exact ⟨(conserved_snprintfAppend t _ s hs (by omega)).1, inside_snprintfAppend t _ s hin⟩
  · have hl : contentLengthHeader.length = 18 := rfl
    have h1 := conserved_snprintfAppend t contentLengthHeader s hs (by omega)
    have h6 := itoa_size_length_le t.intBits _ (calculateJsonSize_lt vars)
    have h2 := conserved_appendTemp_after_write t
      (itoa (toInt t.intBits (calculateJsonSize vars))) (snprintfAppend t contentLengthHeader s)
      h1.1 (inside_snprintfAppend t _ s hin) (by rw [h1.2.1]; omega)
    exact ⟨h2.1, h2.2.1⟩
  · have hl1 : hostHeader.length = 8 := rfl
    have hl2 : IoTPlotterHost.length = 14 := rfl
    have hl3 : ("\r\n".toList).length = 2 := rfl
    have h1 := conserved_snprintfAppend t hostHeader s hs (by omega)
    have h2 := conserved_snprintfAppend t IoTPlotterHost _ h1.1 (by rw [h1.2.1]; omega)
    exact ⟨(conserved_snprintfAppend t _ _ h2.1 (by rw [h2.2.1, h1.2.1]; omega)).1,
      inside_snprintfAppend t _ _ (inside_snprintfAppend t _ _ (inside_snprintfAppend t _ s hin))⟩
  · have hl : samplingFeatureTag.length = 10 := rfl
    exact ⟨(conserved_snprintfAppend t _ s hs (by omega)).1, inside_snprintfAppend t _ s hin⟩

/-- A record group fits the threshold 47 when the record, its four closing bytes
included, has at most 46 bytes: the terminator behind the last closing byte then still
lies inside the array. -/
theorem fits_recordAppends (t : Target) (epoch : Nat) (v : Variable) (more : Bool)
    (hsz : v.varCode.length + 12 + v.valueString.length + 10
        + (itoa (toInt t.intBits epoch)).length + 4 ≤ 46) :
    Fits t ⟨47, recordAppends t epoch v more⟩ := by
  intro s hs hin hroom
  simp only [] at hroom ⊢
  have hl1 : JSONvalueTag.length = 12 := rfl
  have hl2 : epochTag.length = 10 := rfl
  have hn : (v.varCode.take 36).length ≤ v.varCode.length := by simp [List.length_take]
  have hv : (v.valueString.take 36).length ≤ v.valueString.length := by simp [List.length_take]
  have a1 := conserved_appendTemp_after_write t (v.varCode.take 36) s hs hin (by omega)
  have a2 := conserved_snprintfAppend t JSONvalueTag _ a1.1 (by omega)
  have i2 := inside_snprintfAppend t JSONvalueTag _ a1.2.1
  have a3 := conserved_appendTemp_after_write t (v.valueString.take 36) _ a2.1 i2
    (by rw [a2.2.1]; omega)
  have a4 := conserved_snprintfAppend t epochTag _ a3.1 (by have := a2.2.1; omega)
  have i4 := inside_snprintfAppend t epochTag _ a3.2.1
  have a5 := conserved_appendTemp_after_write t (itoa (toInt t.intBits epoch)) _ a4.1 i4
    (by have := a2.2.1; have := a4.2.1; omega)
  have l5 := a5.2.2
  rw [a4.2.1] at l5
  have l3 := a3.2.2
  rw [a2.2.1] at l3
  have l1 := a1.2.2
  cases more
  · have b1 := conserved_putAtEnd t '\x7d' _ a5.1 a5.2.1 (by omega)
    have b2 := conserved_putAtEnd t ']' _ b1.1 b1.2.1 (by rw [b1.2.2]; omega)
    have b3 := conserved_putAtEnd t '\x7d' _ b2.1 b2.2.1 (by rw [b2.2.2, b1.2.2]; omega)
    have b4 := conserved_putAtEnd t '\x7d' _ b3.1 b3.2.1
      (by rw [b3.2.2, b2.2.2, b1.2.2]; omega)
    exact ⟨b4.1, b4.2.1⟩
  · have b1 := conserved_putAtEnd t '\x7d' _ a5.1 a5.2.1 (by omega)
    have b2 := conserved_putAtEnd t ']' _ b1.1 b1.2.1 (by rw [b1.2.2]; omega)
    have b3 := conserved_putAtEnd t ',' _ b2.1 b2.2.1 (by rw [b2.2.2, b1.2.2]; omega)
    have b4 := conserved_putAtEnd t '"' _ b3.1 b3.2.1
      (by rw [b3.2.2, b2.2.2, b1.2.2]; omega)
    exact ⟨b4.1, b4.2.1⟩

/-- Every record group fits when every record has at most 46 bytes. -/
theorem fits_recordGroups (t : Target) (epoch : Nat) :
    ∀ (vars : List Variable),
      (∀ v ∈ vars, v.varCode.length + 12 + v.valueString.length + 10
          + (itoa (toInt t.intBits epoch)).length + 4 ≤ 46) →
      ∀ g ∈ recordGroups t epoch vars, g.threshold ≤ 55 ∧ Fits t g := by
  intro vars
  induction vars with
  | nil => intro _ g hg; simp [recordGroups] at hg
  | cons v rest ih =>
    intro hall g hg
    simp only [recordGroups, List.mem_cons] at hg
    rcases hg with h | h
    · subst h
      exact ⟨by norm_num, fits_recordAppends t epoch v _ (hall v (List.mem_cons_self _ _))⟩
    · exact ih (fun w hw => hall w (List.mem_cons_of_mem _ hw)) g h

/-- The request line, appended to the empty buffer, loses no byte and stays inside the
array when it is shorter than the buffer. -/
theorem conserved_requestLine (t : Target) (p : Publisher)
    (hreq : 48 + p.feedID.length < t.bufferSize) :
    Conserved (requestLineAppends t p (initState []))
      ∧ Inside t (requestLineAppends t p (initState [])) := by
  have hl0 : postHeader.length = 5 := rfl
  have hl1 : ("http://".toList).length = 7 := rfl
  have hl2 : IoTPlotterHost.length = 14 := rfl
  have hl3 : postEndpoint.length = 13 := rfl
  have hl4 : HTTPtag.length = 9 := rfl
  have htake : postHeader.take (t.bufferSize - 1) = postHeader :=
    List.take_of_length_le (by omega)
  have h0 : Conserved (snprintfStart t postHeader (initState [])) := by
    simp [Conserved, snprintfStart, initState, htake]
  have l0 : (snprintfStart t postHeader (initState [])).txBuffer.length = 5 := by
    simp [snprintfStart, htake, hl0]
  have i0 : Inside t (snprintfStart t postHeader (initState [])) := by
    unfold Inside
    simp only [snprintfStart, initState, htake, hl0]
    omega
  have h1 := conserved_snprintfAppend t "http://".toList _ h0 (by omega)
  have h2 := conserved_snprintfAppend t IoTPlotterHost _ h1.1 (by have := h1.2.1; omega)
  have h3 := conserved_snprintfAppend t postEndpoint _ h2.1
    (by have := h1.2.1; have := h2.2.1; omega)
  have h4 := conserved_snprintfAppend t p.feedID _ h3.1
    (by have := h1.2.1; have := h2.2.1; have := h3.2.1; omega)
  exact ⟨(conserved_snprintfAppend t HTTPtag _ h4.1
      (by have := h1.2.1; have := h2.2.1; have := h3.2.1; have := h4.2.1; omega)).1,
    inside_snprintfAppend t _ _ (inside_snprintfAppend t _ _ (inside_snprintfAppend t _ _
      (inside_snprintfAppend t _ _ (inside_snprintfAppend t _ _ i0))))⟩

/-- Byte conservation for runs in which every group fits: when the request line is
shorter than the buffer, the buffer has at least 55 bytes, the API key at most 43, and
every record at most 46, the bytes handed to the transport are the tokens composed, and
the string has stayed, with its terminator, inside the array. -/
theorem composeRequest_conserved (t : Target) (p : Publisher) (vars : List Variable)
    (epoch : Nat) (tx0 : List Char) (hcap : 55 ≤ t.bufferSize)
    (hreq : 48 + p.feedID.length < t.bufferSize) (hkey : p.registrationToken.length ≤ 43)
    (hrec : ∀ v ∈ vars, v.varCode.length + 12 + v.valueString.length + 10
        + (itoa (toInt t.intBits epoch)).length + 4 ≤ 46) :
    (composeRequest t p vars epoch (initState tx0)).sent.flatten
        = (composeRequest t p vars epoch (initState tx0)).composed
      ∧ (composeRequest t p vars epoch (initState tx0)).peak < t.bufferSize := by
  have hall : ∀ g ∈ headerGroups t p vars ++ recordGroups t epoch vars,
      g.threshold ≤ (t.bufferSize : Int) ∧ Fits t g := by
    intro g hg
    rcases List.mem_append.mp hg with h | h
    · have := fits_headerGroups t p vars hkey g h
      exact ⟨by omega, this.2⟩
    · have := fits_recordGroups t epoch vars hrec g h
      exact ⟨by omega, this.2⟩
  have h0 := conserved_requestLine t p hreq
  have h1 := conserved_runGroups t _ _ hall h0.1 h0.2
  have h2 := conserved_printTxBuffer _ h1.1
  rw [composeRequest_eq_runGroups]
  unfold Conserved at h2
  refine ⟨by simpa [printTxBuffer] using h2, ?_⟩
  exact h1.2.2

theorem composed_snprintfAppend (t : Target) (tok : List Char) (s : TxState) :
    (snprintfAppend t tok s).composed = s.composed ++ tok := rfl

theorem tempBuffer_snprintfAppend (t : Target) (tok : List Char) (s : TxState) :
    (snprintfAppend t tok s).tempBuffer = s.tempBuffer := rfl

theorem composed_putAtEnd (t : Target) (c : Char) (s : TxState) :
    (putAtEnd t c s).composed = s.composed ++ [c] := rfl

theorem composed_flushIfBelow (t : Target) (n : Int) (s : TxState) :
    (flushIfBelow t n s).composed = s.composed := by
  unfold flushIfBelow
  split <;> rfl

theorem tempBuffer_flushIfBelow (t : Target) (n : Int) (s : TxState) :
    (flushIfBelow t n s).tempBuffer = s.tempBuffer := by
  unfold flushIfBelow
  split <;> rfl

theorem composed_appendTemp (t : Target) (s : TxState) :
    (appendTemp t s).composed = s.composed ++ cstr s.tempBuffer := rfl

theorem tempBuffer_appendTemp (t : Target) (s : TxState) :
    (appendTemp t s).tempBuffer = s.tempBuffer := rfl

theorem composed_setTemp (text : List Char) (s : TxState) :
    (setTemp text s).composed = s.composed := rfl

theorem tempBuffer_setTemp (text : List Char) (s : TxState) :
    (setTemp text s).tempBuffer = strcpyInto s.tempBuffer text := rfl

/-- The C string read back after a write of `text` is `text`, when it holds no terminator. -/
theorem cstr_strcpyInto (buf text : List Char) (h : NUL ∉ text) :
    cstr (strcpyInto buf text) = text := by
  unfold strcpyInto
  exact cstr_append_NUL _ _ h

/-- The tokens of the request line, the header lines and the JSON opening, when the
content length passes unchanged through `int`. -/
theorem composeHeader_composed (t : Target) (p : Publisher) (vars : List Variable)
    (tx0 : List Char) (hsize : calculateJsonSize vars < 2 ^ (t.intBits - 1)) :
    (composeHeader t p vars (initState tx0)).composed
      = headerBlock p (calculateJsonSize vars) ++ samplingFeatureTag := by
  have hi := itoa_toInt_of_lt t.intBits _ hsize
  have hnul := NUL_not_mem_toDecimal (calculateJsonSize vars)
  unfold composeHeader
  simp only [composed_snprintfAppend, composed_flushIfBelow, composed_appendTemp,
    composed_setTemp, tempBuffer_setTemp, hi, cstr_strcpyInto _ _ hnul, snprintfStart,
    initState, headerBlock, List.nil_append, List.append_assoc]

/-- The tokens of one record whose name and value have at most 36 bytes and no
terminator, when the epoch passes unchanged through `int`. -/
theorem composeRecord_composed (t : Target) (epoch : Nat) (v : Variable) (more : Bool)
    (s : TxState) (hn : v.varCode.length ≤ 36) (hv : v.valueString.length ≤ 36)
    (hn0 : NUL ∉ v.varCode) (hv0 : NUL ∉ v.valueString) (he : epoch < 2 ^ (t.intBits - 1)) :
    (composeRecord t epoch v more s).composed
      = s.composed ++ v.varCode ++ JSONvalueTag ++ v.valueString ++ epochTag ++ toDecimal epoch
        ++ (if more then "\x7d],\"".toList else "\x7d]\x7d\x7d".toList) := by
  have hi := itoa_toInt_of_lt t.intBits _ he
  have hnul := NUL_not_mem_toDecimal epoch
  have t1 : v.varCode.take (37 - 1) = v.varCode := List.take_of_length_le (by omega)
  have t2 : v.valueString.take (37 - 1) = v.valueString := List.take_of_length_le (by omega)
  unfold composeRecord
  cases more
  · simp only [Bool.false_eq_true, if_false, composed_putAtEnd, composed_snprintfAppend,
      composed_flushIfBelow, composed_appendTemp, composed_setTemp, tempBuffer_setTemp,
      toCharArray, hi, t1, t2, cstr_strcpyInto _ _ hnul, cstr_strcpyInto _ _ hn0,
      cstr_strcpyInto _ _ hv0, List.append_assoc]
    rfl
  · simp only [if_true, composed_putAtEnd, composed_snprintfAppend,
      composed_flushIfBelow, composed_appendTemp, composed_setTemp, tempBuffer_setTemp,
      toCharArray, hi, t1, t2, cstr_strcpyInto _ _ hnul, cstr_strcpyInto _ _ hn0,
      cstr_strcpyInto _ _ hv0, List.append_assoc]
    rfl

/-- The tokens of the record loop are the bytes of the printing loop and the closing. -/
theorem composeRecords_composed (t : Target) (epoch : Nat) (he : epoch < 2 ^ (t.intBits - 1)) :
    ∀ (vars : List Variable) (s : TxState), vars ≠ [] →
      (∀ v ∈ vars, v.varCode.length ≤ 36 ∧ v.valueString.length ≤ 36
        ∧ NUL ∉ v.varCode ∧ NUL ∉ v.valueString) →
      (composeRecords t epoch vars s).composed
        = s.composed ++ printSensorDataJSONLoop epoch vars ++ "\x7d\x7d".toList := by
  intro vars
  induction vars with
  | nil => intro s h; exact absurd rfl h
  | cons v rest ih =>
    intro s _ hall
    obtain ⟨hn, hv, hn0, hv0⟩ := hall v (List.mem_cons_self _ _)
    cases rest with
    | nil =>
      simp only [composeRecords, printSensorDataJSONLoop]
      rw [composeRecord_composed t epoch v _ s hn hv hn0 hv0 he]
      simp [List.append_assoc]
    | cons w rest2 =>
      rw [composeRecords, ih _ (List.cons_ne_nil w rest2)
        (fun x hx => hall x (List.mem_cons_of_mem _ hx)),
        composeRecord_composed t epoch v _ s hn hv hn0 hv0 he]
      rw [printSensorDataJSONLoop.eq_def epoch (v :: w :: rest2)]
      simp [List.append_assoc]

/-- The C string of bytes followed by a terminator is the C string of the bytes. -/
theorem cstr_append_NUL_cstr : ∀ (text rest : List Char),
    cstr (text ++ NUL :: rest) = cstr text := by
  intro text
  induction text with
  | nil => intro rest; simp [cstr, List.takeWhile, NUL]
  | cons c cs ih =>
    intro rest
    by_cases hc : (c != NUL) = true
    · have e1 : cstr (c :: cs ++ NUL :: rest) = c :: cstr (cs ++ NUL :: rest) := by
        simp [cstr, List.takeWhile, hc]
      have e2 : cstr (c :: cs) = c :: cstr cs := by
        simp [cstr, List.takeWhile, hc]
      rw [e1, e2, ih rest]
    · have e1 : cstr (c :: cs ++ NUL :: rest) = [] := by
        simp [cstr, List.takeWhile, hc]
      have e2 : cstr (c :: cs) = [] := by
        simp [cstr, List.takeWhile, hc]
      rw [e1, e2]

/-- What `toCharArray(tempBuffer, 37)` leaves to be read back as a C string. -/
theorem cstr_toCharArray (text buf : List Char) :
    cstr (toCharArray text buf 37) = viaTemp text := by
  unfold toCharArray strcpyInto viaTemp
  exact cstr_append_NUL_cstr _ _

/-- The text of `itoa` contains no terminator. -/
theorem NUL_not_mem_itoa (x : Int) : NUL ∉ itoa x := by
  cases x with
  | ofNat n => exact NUL_not_mem_toDecimal n
  | negSucc n =>
    intro h
    simp only [itoa, List.mem_cons] at h
    rcases h with h | h
    · revert h; decide
    · exact NUL_not_mem_toDecimal _ h

theorem composed_printTxBuffer (s : TxState) : (printTxBuffer s).composed = s.composed := rfl

/-- The tokens of one pass of the record loop are the token group of the record. -/
theorem composeRecord_composed_tokens (t : Target) (epoch : Nat) (v : Variable) (more : Bool)
    (s : TxState) :
    (composeRecord t epoch v more s).composed = s.composed ++ recordTokens t epoch v more := by
  have hnul := NUL_not_mem_itoa (toInt t.intBits epoch)
  unfold composeRecord recordTokens
  cases more
  · simp only [Bool.false_eq_true, if_false, composed_putAtEnd, composed_snprintfAppend,
      composed_flushIfBelow, composed_appendTemp, composed_setTemp, tempBuffer_setTemp,
      cstr_toCharArray, cstr_strcpyInto _ _ hnul, List.append_assoc]
    rfl
  · simp only [if_true, composed_putAtEnd, composed_snprintfAppend,
      composed_flushIfBelow, composed_appendTemp, composed_setTemp, tempBuffer_setTemp,
      cstr_toCharArray, cstr_strcpyInto _ _ hnul, List.append_assoc]
    rfl

/-- The tokens of the record loop are the token groups of the records. -/
theorem composeRecords_composed_tokens (t : Target) (epoch : Nat) :
    ∀ (vars : List Variable) (s : TxState),
      (composeRecords t epoch vars s).composed
        = s.composed ++ (recordTokenGroups t epoch vars).flatten := by
  intro vars
  induction vars with
  | nil => intro s; simp [composeRecords, recordTokenGroups]
  | cons v rest ih =>
    intro s
    rw [composeRecords, ih, composeRecord_composed_tokens]
    simp [recordTokenGroups, List.append_assoc]

/-- The tokens of the request line, the header lines and the JSON opening. -/
theorem composeHeader_composed_tokens (t : Target) (p : Publisher) (vars : List Variable)
    (epoch : Nat) (tx0 : List Char) :
    (composeHeader t p vars (initState tx0)).composed
      = ((tokenGroups t p vars epoch).take 7).flatten := by
  have hnul := NUL_not_mem_itoa (toInt t.intBits (calculateJsonSize vars))
  unfold composeHeader
  simp only [composed_snprintfAppend, composed_flushIfBelow, composed_appendTemp,
    composed_setTemp, tempBuffer_setTemp, cstr_strcpyInto _ _ hnul, snprintfStart,
    initState, tokenGroups, List.nil_append, List.append_assoc]
  simp [List.append_assoc]

/-- In every connected run the tokens passed to the appends are the token groups, in
order. -/
theorem composeRequest_composed_eq_tokenGroups (t : Target) (p : Publisher)
    (vars : List Variable) (epoch : Nat) (tx0 : List Char) :
    (composeRequest t p vars epoch (initState tx0)).composed
      = (tokenGroups t p vars epoch).flatten := by
  unfold composeRequest
  rw [composed_printTxBuffer, composeRecords_composed_tokens,
    composeHeader_composed_tokens t p vars epoch tx0]
  simp [tokenGroups, List.append_assoc]

/-- Where the body sent is the body printed: in a connected run on a non-empty payload
whose names and values have at most 36 bytes and no terminator, with every record of at
most 46 bytes, an API key of at most 43 bytes, a request line shorter than the buffer,
and an epoch and a content length that pass unchanged through `int`, the bytes handed to
the transport are the header block followed by the bytes of `printSensorDataJSON`, and
the string in `txBuffer` has stayed, with its terminator, inside the array. -/
theorem publishData_wire_eq_header_and_printed (t : Target) (p : Publisher)
    (vars : List Variable) (epoch : Nat) (e : Env) (fuel : Nat) (tx0 : List Char)
    (hc : e.connect = true) (hclk : ClockAdvances e) (hf : 10000 < fuel) (hne : vars ≠ [])
    (hcap : 55 ≤ t.bufferSize) (hreq : 48 + p.feedID.length < t.bufferSize)
    (hkey : p.registrationToken.length ≤ 43)
    (hnames : ∀ v ∈ vars, v.varCode.length ≤ 36 ∧ v.valueString.length ≤ 36
      ∧ NUL ∉ v.varCode ∧ NUL ∉ v.valueString)
    (hrec : ∀ v ∈ vars, v.varCode.length + 12 + v.valueString.length + 10
      + (toDecimal epoch).length + 4 ≤ 46)
    (he : epoch < 2 ^ (t.intBits - 1)) (hsize : calculateJsonSize vars < 2 ^ (t.intBits - 1)) :
    ∃ o, publishData t p vars epoch e fuel tx0 = some o
      ∧ wire o = headerBlock p (calculateJsonSize vars) ++ printSensorDataJSON vars epoch
      ∧ o.state.peak < t.bufferSize := by
  obtain ⟨n, hn⟩ := waitLoop_returns e hclk fuel 0 (Nat.zero_le _) (by omega) (by omega)
  have hrec2 : ∀ v ∈ vars, v.varCode.length + 12 + v.valueString.length + 10
      + (itoa (toInt t.intBits epoch)).length + 4 ≤ 46 := by
    intro v hv
    rw [itoa_toInt_of_lt t.intBits _ he]
    exact hrec v hv
  have key := composeRequest_conserved t p vars epoch tx0 hcap hreq hkey hrec2
  refine ⟨_, publishData_of_waitLoop t p vars epoch e fuel tx0 n hc hn, ?_, key.2⟩
  show (composeRequest t p vars epoch (initState tx0)).sent.flatten = _
  rw [key.1]
  show (composeRecords t epoch vars (composeHeader t p vars (initState tx0))).composed = _
  rw [composeRecords_composed t epoch he vars _ hne hnames,
    composeHeader_composed t p vars tx0 hsize]
  simp only [printSensorDataJSON, List.append_assoc]

/-- The conditions of `publishData_wire_eq_header_and_printed` hold for the run on
TEMP = 23.5, HUM = 60.2 at epoch 1690000000 on the reference build. -/
theorem publishData_demo_wire_eq_header_and_printed :
    ∃ o, publishData defaultTarget demoPublisher demoVars 1690000000 createdEnv 10001 []
        = some o
      ∧ wire o = headerBlock demoPublisher (calculateJsonSize demoVars)
          ++ printSensorDataJSON demoVars 1690000000
      ∧ o.state.peak < defaultTarget.bufferSize :=
  publishData_wire_eq_header_and_printed defaultTarget demoPublisher demoVars 1690000000
    createdEnv 10001 [] rfl (clockAdvances_of_ten_ms createdEnv (fun _ => rfl)) (by decide)
    (by decide) (by decide) (by decide) (by decide) (by decide) (by decide) (by decide)
    (by decide)

/-! ## Chunks of whole token groups -/

/-- A group that fits and appends the tokens `d` keeps the chunks aligned with the
groups: its test of the free space flushes whole groups only, and its appends add the
whole group `d` to the buffer. -/
theorem aligned_runGroup (t : Target) (g : Group) (d : List Char) (done : List (List Char))
    (s : TxState) (hthr : g.threshold ≤ (t.bufferSize : Int)) (hfit : Fits t g)
    (hsent : ∀ s, (g.appends s).sent = s.sent)
    (hcomp : ∀ s, (g.appends s).composed = s.composed ++ d)
    (hc : Conserved s) (hi : Inside t s) (ha : Aligned done s) :
    Conserved (runGroup t s g) ∧ Inside t (runGroup t s g)
      ∧ Aligned (done ++ [d]) (runGroup t s g) := by
  obtain ⟨c1, i1, hroom⟩ := conserved_flushIfBelow t g.threshold s hc hi hthr
  obtain ⟨c2, i2⟩ := hfit _ c1 i1 hroom
  have a1 : Aligned done (flushIfBelow t g.threshold s) := by
    obtain ⟨blocks, pending, e1, e2, e3⟩ := ha
    unfold flushIfBelow
    by_cases hb : bufferFree t s < g.threshold
    · rw [if_pos hb]
      refine ⟨blocks ++ [pending], [], by simpa using e1, ?_, rfl⟩
      simp [printTxBuffer, e2, e3]
    · rw [if_neg hb]
      exact ⟨blocks, pending, e1, e2, e3⟩
  refine ⟨c2, i2, ?_⟩
  obtain ⟨blocks, pending, e1, e2, e3⟩ := a1
  have htx : (g.appends (flushIfBelow t g.threshold s)).txBuffer
      = (flushIfBelow t g.threshold s).txBuffer ++ d := by
    unfold Conserved at c1 c2
    rw [hsent, hcomp, ← c1, List.append_assoc] at c2
    exact List.append_cancel_left c2
  refine ⟨blocks, pending ++ [d], ?_, ?_, ?_⟩
  · rw [← List.append_assoc, e1]
  · show (g.appends (flushIfBelow t g.threshold s)).sent = _
    rw [hsent, e2]
  · show (g.appends (flushIfBelow t g.threshold s)).txBuffer = _
    rw [htx, e3]
    simp

/-- The appends of a record hand nothing to the transport. -/
theorem sent_recordAppends (t : Target) (epoch : Nat) (v : Variable) (more : Bool)
    (s : TxState) : (recordAppends t epoch v more s).sent = s.sent := by
  cases more <;> rfl

/-- The tokens of the appends of a record are the token group of the record. -/
theorem composed_recordAppends (t : Target) (epoch : Nat) (v : Variable) (more : Bool)
    (s : TxState) :
    (recordAppends t epoch v more s).composed = s.composed ++ recordTokens t epoch v more := by
  have hnul := NUL_not_mem_itoa (toInt t.intBits epoch)
  unfold recordAppends recordTokens
  cases more
  · simp only [Bool.false_eq_true, if_false, composed_putAtEnd, composed_snprintfAppend,
      composed_appendTemp, composed_setTemp, tempBuffer_setTemp,
      cstr_toCharArray, cstr_strcpyInto _ _ hnul, List.append_assoc]
    rfl
  · simp only [if_true, composed_putAtEnd, composed_snprintfAppend,
      composed_appendTemp, composed_setTemp, tempBuffer_setTemp,
      cstr_toCharArray, cstr_strcpyInto _ _ hnul, List.append_assoc]
    rfl

/-- The record groups of records of at most 46 bytes keep the chunks aligned with the
groups. -/
theorem aligned_recordGroups (t : Target) (epoch : Nat) (hcap : 47 ≤ t.bufferSize) :
    ∀ (vars : List Variable) (done : List (List Char)) (s : TxState),
      (∀ v ∈ vars, v.varCode.length + 12 + v.valueString.length + 10
          + (itoa (toInt t.intBits epoch)).length + 4 ≤ 46) →
      Conserved s → Inside t s → Aligned done s →
      Conserved (runGroups t (recordGroups t epoch vars) s)
        ∧ Inside t (runGroups t (recordGroups t epoch vars) s)
        ∧ Aligned (done ++ recordTokenGroups t epoch vars)
            (runGroups t (recordGroups t epoch vars) s) := by
  intro vars
  induction vars with
  | nil =>
    intro done s _ hc hi ha
    refine ⟨hc, hi, ?_⟩
    simpa [recordTokenGroups] using ha
  | cons v rest ih =>
    intro done s hall hc hi ha
    have step := aligned_runGroup t ⟨47, recordAppends t epoch v (rest ≠ [])⟩
      (recordTokens t epoch v (rest ≠ [])) done s (by simp only []; omega)
      (fits_recordAppends t epoch v _ (hall v (List.mem_cons_self _ _)))
      (sent_recordAppends t epoch v _) (composed_recordAppends t epoch v _) hc hi ha
    have := ih (done ++ [recordTokens t epoch v (rest ≠ [])]) _
      (fun w hw => hall w (List.mem_cons_of_mem _ hw)) step.1 step.2.1 step.2.2
    simpa [recordGroups, recordTokenGroups, runGroups, List.append_assoc] using this

/-- The header groups keep the chunks aligned with the groups when the API key has at
most 43 bytes and the buffer at least 55. -/
theorem aligned_headerGroups (t : Target) (p : Publisher) (vars : List Variable)
    (hcap : 55 ≤ t.bufferSize) (hkey : p.registrationToken.length ≤ 43)
    (done : List (List Char)) (s : TxState)
    (hc : Conserved s) (hi : Inside t s) (ha : Aligned done s) :
    Conserved (runGroups t (headerGroups t p vars) s)
      ∧ Inside t (runGroups t (headerGroups t p vars) s)
      ∧ Aligned (done ++ ["\r\nConnection: Close".toList, apiHeader ++ p.registrationToken,
            contentTypeHeader,
            contentLengthHeader ++ itoa (toInt t.intBits (calculateJsonSize vars)),
            hostHeader ++ IoTPlotterHost ++ "\r\n".toList, samplingFeatureTag])
          (runGroups t (headerGroups t p vars) s) := by
  have hfits := fits_headerGroups t p vars hkey
  have hnul := NUL_not_mem_itoa (toInt t.intBits (calculateJsonSize vars))
  have s1 := aligned_runGroup t ⟨28, snprintfAppend t "\r\nConnection: Close".toList⟩
    "\r\nConnection: Close".toList done s (by simp only []; omega)
    (hfits _ (by simp [headerGroups])).2 (fun _ => rfl) (fun _ => rfl) hc hi ha
  have s2 := aligned_runGroup t
    ⟨55, fun s => snprintfAppend t p.registrationToken (snprintfAppend t apiHeader s)⟩
    (apiHeader ++ p.registrationToken) _ _ (by simp only []; omega)
    (hfits _ (by simp [headerGroups])).2 (fun _ => rfl)
    (fun _ => by simp only [composed_snprintfAppend, List.append_assoc]) s1.1 s1.2.1 s1.2.2
  have s3 := aligned_runGroup t ⟨55, snprintfAppend t contentTypeHeader⟩
    contentTypeHeader _ _ (by simp only []; omega)
    (hfits _ (by simp [headerGroups])).2 (fun _ => rfl) (fun _ => rfl) s2.1 s2.2.1 s2.2.2
  have s4 := aligned_runGroup t ⟨25, contentLengthAppends t vars⟩
    (contentLengthHeader ++ itoa (toInt t.intBits (calculateJsonSize vars))) _ _
    (by simp only []; omega)
    (hfits _ (by simp [headerGroups])).2 (fun _ => rfl)
    (fun _ => by
      simp only [contentLengthAppends, composed_appendTemp, composed_setTemp,
        tempBuffer_setTemp, composed_snprintfAppend, cstr_strcpyInto _ _ hnul,
        List.append_assoc])
    s3.1 s3.2.1 s3.2.2
  have s5 := aligned_runGroup t
    ⟨25, fun s => snprintfAppend t "\r\n".toList
      (snprintfAppend t IoTPlotterHost (snprintfAppend t hostHeader s))⟩
    (hostHeader ++ IoTPlotterHost ++ "\r\n".toList) _ _ (by simp only []; omega)
    (hfits _ (by simp [headerGroups])).2 (fun _ => rfl)
    (fun _ => by simp only [composed_snprintfAppend, List.append_assoc]) s4.1 s4.2.1 s4.2.2
  have s6 := aligned_runGroup t ⟨21, snprintfAppend t samplingFeatureTag⟩
    samplingFeatureTag _ _ (by simp only []; omega)
    (hfits _ (by simp [headerGroups])).2 (fun _ => rfl) (fun _ => rfl) s5.1 s5.2.1 s5.2.2
  simpa [headerGroups, runGroups, List.append_assoc] using s6

/-- Where the chunks are whole token groups: in a connected run in which every group fits
(a request line shorter than the buffer, a buffer of at least 55 bytes, an API key of at
most 43 bytes, every record of at most 46 bytes), the list of chunks arises from the list
of whole token groups by cutting it into consecutive blocks and joining each block, and
the string has stayed inside the array. -/
theorem publishData_chunks_are_blocks_of_whole_groups (t : Target) (p : Publisher)
    (vars : List Variable) (epoch : Nat) (e : Env) (fuel : Nat) (tx0 : List Char)
    (hc : e.connect = true) (hclk : ClockAdvances e) (hf : 10000 < fuel)
    (hcap : 55 ≤ t.bufferSize) (hreq : 48 + p.feedID.length < t.bufferSize)
    (hkey : p.registrationToken.length ≤ 43)
    (hrec : ∀ v ∈ vars, v.varCode.length + 12 + v.valueString.length + 10
        + (itoa (toInt t.intBits epoch)).length + 4 ≤ 46) :
    ∃ o, publishData t p vars epoch e fuel tx0 = some o
      ∧ (∃ blocks : List (List (List Char)),
          blocks.flatten = tokenGroups t p vars epoch
            ∧ o.state.sent = blocks.map List.flatten)
      ∧ o.state.peak < t.bufferSize := by
  obtain ⟨n, hn⟩ := waitLoop_returns e hclk fuel 0 (Nat.zero_le _) (by omega) (by omega)
  refine ⟨_, publishData_of_waitLoop t p vars epoch e fuel tx0 n hc hn, ?_,
    (composeRequest_conserved t p vars epoch tx0 hcap hreq hkey hrec).2⟩
  show ∃ blocks : List (List (List Char)), blocks.flatten = tokenGroups t p vars epoch
      ∧ (composeRequest t p vars epoch (initState tx0)).sent = blocks.map List.flatten
  have h0 := conserved_requestLine t p hreq
  have a0 : Aligned
      [postHeader ++ "http://".toList ++ IoTPlotterHost ++ postEndpoint ++ p.feedID ++ HTTPtag]
      (requestLineAppends t p (initState [])) := by
    refine ⟨[], [_], rfl, rfl, ?_⟩
    have := h0.1
    unfold Conserved at this
    have hs : (requestLineAppends t p (initState [])).sent = [] := rfl
    rw [hs] at this
    simp only [List.flatten_nil, List.nil_append] at this
    rw [this]
    simp [requestLineAppends, composed_snprintfAppend, snprintfStart, initState,
      List.append_assoc]
  have h1 := aligned_headerGroups t p vars hcap hkey _ _ h0.1 h0.2 a0
  have h2 := aligned_recordGroups t epoch (by omega) vars _ _ hrec h1.1 h1.2.1 h1.2.2
  obtain ⟨blocks, pending, e1, e2, e3⟩ := h2.2.2
  refine ⟨blocks ++ [pending], ?_, ?_⟩
  · rw [List.flatten_append, List.flatten_singleton, e1]
    simp [tokenGroups]
  · rw [composeRequest_eq_runGroups]
    simp only [runGroups, List.foldl_append] at e2 e3 ⊢
    simp [printTxBuffer, e2, e3]

/-! ## A response shorter than the status offset -/

/-- A read of at most 9 bytes leaves offsets 9 to 11 of `tempBuffer` as they were. -/
theorem readBytes_short_getD (e : Env) (s : TxState) (i : Nat) (hi : 9 ≤ i)
    (hlen : e.incoming.length ≤ 9) :
    (readBytes e s).1 = e.incoming.length
      ∧ (readBytes e s).2.tempBuffer.getD i NUL = s.tempBuffer.getD i NUL := by
  have ht : e.incoming.take 12 = e.incoming := List.take_of_length_le (by omega)
  refine ⟨by simp only [readBytes, ht], ?_⟩
  simp only [readBytes, ht, List.getD_eq_getElem?_getD]
  rw [List.getElem?_append_right (by omega), List.getElem?_drop]
  congr 2
  omega

/-- After a read of 1 to 9 bytes the status is the one parsed from offsets 9 to 11 of
`tempBuffer` as the composition left it. -/
theorem responseCodeOf_after_short_read (e : Env) (s : TxState)
    (h1 : 1 ≤ e.incoming.length) (h9 : e.incoming.length ≤ 9) :
    responseCodeOf (readBytes e s).1 (readBytes e s).2.tempBuffer e.stack
      = responseCodeOf 1 s.tempBuffer e.stack := by
  have a := readBytes_short_getD e s 9 (by decide) h9
  have b := readBytes_short_getD e s 10 (by decide) h9
  have c := readBytes_short_getD e s 11 (by decide) h9
  unfold responseCodeOf
  rw [a.1, if_pos (by omega), if_pos (by decide), a.2, b.2, c.2]

/-- C22: when between 1 and 9 response bytes are read, the value returned does not depend
on them: two connected runs on the same inputs that differ in the bytes received return
the same value, the one parsed from offsets 9 to 11 of `tempBuffer` as the composition,
which ends with the rendering of the epoch, left it. -/
theorem publishData_short_response_is_ignored (t : Target) (p : Publisher)
    (vars : List Variable) (epoch : Nat) (e1 e2 : Env) (fuel : Nat) (tx0 : List Char)
    (hc1 : e1.connect = true) (hc2 : e2.connect = true) (hclk1 : ClockAdvances e1)
    (hclk2 : ClockAdvances e2) (hf : 10000 < fuel)
    (h1 : 1 ≤ e1.incoming.length ∧ e1.incoming.length ≤ 9)
    (h2 : 1 ≤ e2.incoming.length ∧ e2.incoming.length ≤ 9) (hst : e1.stack = e2.stack) :
    ∃ o1 o2, publishData t p vars epoch e1 fuel tx0 = some o1
      ∧ publishData t p vars epoch e2 fuel tx0 = some o2
      ∧ o1.responseCode = o2.responseCode
      ∧ o1.responseCode
        = responseCodeOf 1 (composeRequest t p vars epoch (initState tx0)).tempBuffer e1.stack := by
  obtain ⟨n1, hn1⟩ := waitLoop_returns e1 hclk1 fuel 0 (Nat.zero_le _) (by omega) (by omega)
  obtain ⟨n2, hn2⟩ := waitLoop_returns e2 hclk2 fuel 0 (Nat.zero_le _) (by omega) (by omega)
  have r1 := responseCodeOf_after_short_read e1 (composeRequest t p vars epoch (initState tx0))
    h1.1 h1.2
  have r2 := responseCodeOf_after_short_read e2 (composeRequest t p vars epoch (initState tx0))
    h2.1 h2.2
  refine ⟨_, _, publishData_of_waitLoop t p vars epoch e1 fuel tx0 n1 hc1 hn1,
    publishData_of_waitLoop t p vars epoch e2 fuel tx0 n2 hc2 hn2, ?_, r1⟩
  show responseCodeOf _ _ _ = responseCodeOf _ _ _
  rw [r1, r2, hst]

/-- C22 (witness): the statement at the payload TEMP = 23.5, HUM = 60.2, epoch 1690000007,
for the responses `HTTP/` and `HTTP/1.1 `. -/
theorem publishData_short_response_is_ignored_witness :
    partialEnv.connect = true ∧ nineBytesEnv.connect = true ∧ ClockAdvances partialEnv
      ∧ ClockAdvances nineBytesEnv ∧ 10000 < 10001
      ∧ (1 ≤ partialEnv.incoming.length ∧ partialEnv.incoming.length ≤ 9)
      ∧ (1 ≤ nineBytesEnv.incoming.length ∧ nineBytesEnv.incoming.length ≤ 9)
      ∧ partialEnv.stack = nineBytesEnv.stack
      ∧ ∃ o1 o2,
          publishData defaultTarget demoPublisher demoVars 1690000007 partialEnv 10001 []
            = some o1
          ∧ publishData defaultTarget demoPublisher demoVars 1690000007 nineBytesEnv 10001 []
            = some o2
          ∧ o1.responseCode = o2.responseCode
          ∧ o1.responseCode
            = responseCodeOf 1 (composeRequest defaultTarget demoPublisher demoVars 1690000007
                (initState [])).tempBuffer partialEnv.stack :=
  ⟨rfl, rfl, clockAdvances_of_ten_ms partialEnv (fun _ => rfl),
    clockAdvances_of_ten_ms nineBytesEnv (fun _ => rfl), by decide, by decide, by decide, rfl,
    publishData_short_response_is_ignored defaultTarget demoPublisher demoVars 1690000007
      partialEnv nineBytesEnv 10001 [] rfl rfl (clockAdvances_of_ten_ms partialEnv (fun _ => rfl))
      (clockAdvances_of_ten_ms nineBytesEnv (fun _ => rfl)) (by decide) (by decide) (by decide)
      rfl⟩

/-- The value of the two runs of the witness: 7, the last digit of the epoch 1690000007. -/
theorem publishData_short_response_demo :
    (publishData defaultTarget demoPublisher demoVars 1690000007 partialEnv 1000 []).map
        (fun o => (o.did_respond, o.responseCode)) = some (5, 7)
      ∧ (publishData defaultTarget demoPublisher demoVars 1690000007 nineBytesEnv 1000 []).map
        (fun o => (o.did_respond, o.responseCode)) = some (9, 7) := by
  decide!

/-! ## The empty payload -/

/-- C23: for the empty payload `calculateJsonSize` returns 12 and `printSensorDataJSON`
prints the 12 bytes of the opening and the closing, but the connected run of
`publishData` declares `Content-Length: 12` and hands over only the 10 bytes of the
opening after the header block: the closing braces are never appended. -/
theorem publishData_empty_payload_sends_opening_only :
    calculateJsonSize [] = 12
      ∧ printSensorDataJSON [] 1690000000 = "\x7b\"data\":\x7b\"\x7d\x7d".toList
      ∧ (publishData defaultTarget demoPublisher [] 1690000000 createdEnv 1 []).map wire
        = some (headerBlock demoPublisher 12 ++ "\x7b\"data\":\x7b\"".toList)
      ∧ ("\x7b\"data\":\x7b\"".toList).length = 10 := by
  decide!

/-! ## Names and values beyond 36 bytes -/

/-- A record enters the buffer as the record of its name and value cut to 36 bytes. -/
theorem composeRecord_cutTo36 (t : Target) (epoch : Nat) (v : Variable) (more : Bool)
    (s : TxState) :
    composeRecord t epoch v more s
      = composeRecord t epoch ⟨v.varCode.take 36, v.valueString.take 36⟩ more s := by
  simp only [composeRecord, toCharArray, List.take_take, Nat.min_self]

/-- The record loop on a payload is the record loop on the payload cut to 36 bytes. -/
theorem composeRecords_cutTo36 (t : Target) (epoch : Nat) :
    ∀ (vars : List Variable) (s : TxState),
      composeRecords t epoch vars s = composeRecords t epoch (cutTo36 vars) s := by
  intro vars
  induction vars with
  | nil => intro s; rfl
  | cons v rest ih =>
    intro s
    have hm : decide (rest ≠ []) = decide (cutTo36 rest ≠ []) := by
      cases rest <;> rfl
    simp only [cutTo36, List.map_cons, composeRecords] at ih ⊢
    rw [ih, composeRecord_cutTo36]
    simp only [cutTo36] at hm
    rw [hm]

/-- The bytes printed for a payload exceed the bytes printed for the payload cut to 36
bytes by the bytes beyond 36. -/
theorem printSensorDataJSONLoop_length_cutTo36 (epoch : Nat) :
    ∀ (vars : List Variable),
      (printSensorDataJSONLoop epoch vars).length
        = (printSensorDataJSONLoop epoch (cutTo36 vars)).length + excess36 vars := by
  intro vars
  induction vars with
  | nil => rfl
  | cons v rest ih =>
    have hn : (v.varCode.take 36).length + (v.varCode.length - 36) = v.varCode.length := by
      rw [List.length_take]; omega
    have hv : (v.valueString.take 36).length + (v.valueString.length - 36)
        = v.valueString.length := by
      rw [List.length_take]; omega
    cases rest with
    | nil =>
      simp only [cutTo36, excess36, List.map_cons, List.map_nil, printSensorDataJSONLoop,
        List.length_append, List.sum_cons, List.sum_nil]
      omega
    | cons w rest2 =>
      simp only [cutTo36, excess36, List.map_cons, List.sum_cons] at ih ⊢
      rw [printSensorDataJSONLoop.eq_def epoch (v :: w :: rest2),
        printSensorDataJSONLoop.eq_def epoch (_ :: _ :: _)]
      simp only [List.length_append, ne_eq, reduceCtorEq, not_false_eq_true, ite_true]
      rw [ih]
      omega

/-- The names and values of the payload cut to 36 bytes have at most 36 bytes, and no
terminator when the payload has none. -/
theorem cutTo36_wellFormed (vars : List Variable)
    (hnul : ∀ v ∈ vars, NUL ∉ v.varCode ∧ NUL ∉ v.valueString) :
    ∀ v ∈ cutTo36 vars, v.varCode.length ≤ 36 ∧ v.valueString.length ≤ 36
      ∧ NUL ∉ v.varCode ∧ NUL ∉ v.valueString := by
  intro v hv
  simp only [cutTo36, List.mem_map] at hv
  obtain ⟨w, hw, rfl⟩ := hv
  obtain ⟨h1, h2⟩ := hnul w hw
  refine ⟨?_, ?_, fun h => h1 (List.mem_of_mem_take h), fun h => h2 (List.mem_of_mem_take h)⟩
  · simp only [List.length_take]; omega
  · simp only [List.length_take]; omega

/-- C21: with a 40-byte name, 4 bytes beyond 36, the body sent is not 4 bytes shorter
than the body printed: behind nine other records the record is cut once more at the end
of the buffer and 523 bytes are sent against 554 printed; and alone, at epoch
3000000000, `itoa` renders the epoch as a negative `int` and 88 bytes are sent against
91 printed. -/
theorem publishData_long_name_body_not_shorter_by_excess :
    excess36 longFieldVars = 4
      ∧ (printSensorDataJSON longFieldVars 1690000000).length = 554
      ∧ (publishData defaultTarget demoPublisher longFieldVars 1690000000 createdEnv 1 []).map
          (fun o => (decide ((wire o).take 230 = headerBlock demoPublisher 564),
            ((wire o).drop 230).length)) = some (true, 523)
      ∧ excess36 longNameVars = 4
      ∧ (printSensorDataJSON longNameVars 3000000000).length = 91
      ∧ (publishData defaultTarget demoPublisher longNameVars 3000000000 createdEnv 1 []).map
          (fun o => (decide ((wire o).take 229 = headerBlock demoPublisher 92),
            ((wire o).drop 229).length)) = some (true, 88) := by
  decide!

/-- Where the body sent is shorter by the bytes beyond 36: in a connected run on a
non-empty payload in which no token is cut at the end of the buffer, the string stays
inside the array and the epoch and the content length pass unchanged through `int`, the
bytes sent are the header block, whose content length is `calculateJsonSize` of the full
names and values, and then the bytes `printSensorDataJSON` prints for the payload with
every name and value cut to 36 bytes; the body printed for the payload itself is longer
by exactly the bytes beyond 36. -/
theorem publishData_body_is_printed_body_cut_to_36 (t : Target) (p : Publisher)
    (vars : List Variable) (epoch : Nat) (e : Env) (fuel : Nat) (tx0 : List Char)
    (hc : e.connect = true) (hclk : ClockAdvances e) (hf : 10000 < fuel) (hne : vars ≠ [])
    (hnul : ∀ v ∈ vars, NUL ∉ v.varCode ∧ NUL ∉ v.valueString)
    (he : epoch < 2 ^ (t.intBits - 1)) (hsize : calculateJsonSize vars < 2 ^ (t.intBits - 1))
    (hun : Uncut t p vars epoch) (hin : InArray t p vars epoch) :
    ∃ o, publishData t p vars epoch e fuel tx0 = some o
      ∧ wire o = headerBlock p (calculateJsonSize vars)
          ++ printSensorDataJSON (cutTo36 vars) epoch
      ∧ o.state.peak < t.bufferSize
      ∧ (printSensorDataJSON vars epoch).length
        = (printSensorDataJSON (cutTo36 vars) epoch).length + excess36 vars := by
  obtain ⟨n, hn⟩ := waitLoop_returns e hclk fuel 0 (Nat.zero_le _) (by omega) (by omega)
  have h0 : composeRequest t p vars epoch (initState tx0)
      = composeRequest t p vars epoch (initState []) := by
    rw [composeRequest_eq_runGroups, composeRequest_eq_runGroups]
  refine ⟨_, publishData_of_waitLoop t p vars epoch e fuel tx0 n hc hn, ?_, ?_, ?_⟩
  · show (composeRequest t p vars epoch (initState tx0)).sent.flatten = _
    have hne2 : cutTo36 vars ≠ [] := by
      cases vars with
      | nil => exact absurd rfl hne
      | cons v rest => simp [cutTo36]
    rw [h0, hun]
    show (composeRecords t epoch vars (composeHeader t p vars (initState []))).composed = _
    rw [composeRecords_cutTo36,
      composeRecords_composed t epoch he (cutTo36 vars) _ hne2 (cutTo36_wellFormed vars hnul),
      composeHeader_composed t p vars [] hsize]
    simp only [printSensorDataJSON, List.append_assoc]
  · show (composeRequest t p vars epoch (initState tx0)).peak < _
    rw [h0]
    exact hin
  · have := printSensorDataJSONLoop_length_cutTo36 epoch vars
    simp only [printSensorDataJSON, List.length_append]
    omega

/-- The statement of `publishData_body_is_printed_body_cut_to_36` at a single variable
with a 40-byte name: 87 bytes are sent where 91 are printed. -/
theorem publishData_long_name_body_at_1690000000 :
    Uncut defaultTarget demoPublisher longNameVars 1690000000
      ∧ InArray defaultTarget demoPublisher longNameVars 1690000000
      ∧ ∃ o, publishData defaultTarget demoPublisher longNameVars 1690000000 createdEnv 10001 []
            = some o
          ∧ wire o = headerBlock demoPublisher (calculateJsonSize longNameVars)
              ++ printSensorDataJSON (cutTo36 longNameVars) 1690000000
          ∧ o.state.peak < defaultTarget.bufferSize
          ∧ (printSensorDataJSON longNameVars 1690000000).length
            = (printSensorDataJSON (cutTo36 longNameVars) 1690000000).length
              + excess36 longNameVars := by
  have hun : Uncut defaultTarget demoPublisher longNameVars 1690000000 := by
    unfold Uncut
    decide!
  have hin : InArray defaultTarget demoPublisher longNameVars 1690000000 := by
    unfold InArray
    decide!
  exact ⟨hun, hin,
    publishData_body_is_printed_body_cut_to_36 defaultTarget demoPublisher longNameVars
      1690000000 createdEnv 10001 [] rfl (clockAdvances_of_ten_ms createdEnv (fun _ => rfl))
      (by decide) (by decide) (by decide) (by decide) (by decide) hun hin⟩

/-! ## The order of the records in the body sent -/

/-- The last write into `tempBuffer` of a record is the rendering of the epoch. -/
theorem composeRecord_tempBuffer (t : Target) (epoch : Nat) (v : Variable) (more : Bool)
    (s : TxState) :
    ∃ buf, (composeRecord t epoch v more s).tempBuffer
      = strcpyInto buf (itoa (toInt t.intBits epoch)) := by
  cases more <;> exact ⟨_, rfl⟩

/-- After the record loop on a non-empty payload `tempBuffer` starts with the rendering
of the epoch and its terminator. -/
theorem composeRecords_tempBuffer (t : Target) (epoch : Nat) :
    ∀ (vars : List Variable) (s : TxState), vars ≠ [] →
      ∃ buf, (composeRecords t epoch vars s).tempBuffer
        = strcpyInto buf (itoa (toInt t.intBits epoch)) := by
  intro vars
  induction vars with
  | nil => intro s h; exact absurd rfl h
  | cons v rest ih =>
    intro s _
    cases rest with
    | nil => exact composeRecord_tempBuffer t epoch v _ s
    | cons w rest2 =>
      rw [composeRecords]
      exact ih _ (List.cons_ne_nil w rest2)

/-- The rendering of a ten-digit number is nine characters and then the digit of its
units. -/
theorem toDecimal_ten_digits (n : Nat) (h1 : 1000000000 ≤ n) (h2 : n < 10000000000) :
    ∃ front, front.length = 9 ∧ toDecimal n = front ++ [digitChar (n % 10)] := by
  refine ⟨toDecimalAux n (n / 10), ?_, ?_⟩
  · exact toDecimalAux_length 8 n (n / 10) (by omega)
      (by rw [Nat.div_lt_iff_lt_mul (by decide)]; norm_num; omega)
      (Or.inr (by rw [Nat.le_div_iff_mul_le (by decide)]; norm_num; omega))
  · have hge : ¬ n < 10 := by omega
    simp [toDecimal, toDecimalAux, hge]

/-- With a non-empty payload and a ten-digit epoch that passes unchanged through `int`,
offset 9 of `tempBuffer` holds the last digit of the epoch and offset 10 its terminator,
so the status parsed after a short read is that digit. -/
theorem responseCodeOf_after_compose (t : Target) (p : Publisher) (vars : List Variable)
    (epoch : Nat) (tx0 stack : List Char) (hne : vars ≠ []) (h1 : 1000000000 ≤ epoch)
    (h2 : epoch < 10000000000) (he : epoch < 2 ^ (t.intBits - 1)) :
    responseCodeOf 1 (composeRequest t p vars epoch (initState tx0)).tempBuffer stack
      = (epoch % 10 : Nat) := by
  obtain ⟨buf, hb⟩ := composeRecords_tempBuffer t epoch vars
    (composeHeader t p vars (initState tx0)) hne
  obtain ⟨front, hlen, hd⟩ := toDecimal_ten_digits epoch h1 h2
  have htemp : (composeRequest t p vars epoch (initState tx0)).tempBuffer
      = front ++ digitChar (epoch % 10) :: NUL :: buf.drop (9 + 1 + 1) := by
    show (composeRecords t epoch vars (composeHeader t p vars (initState tx0))).tempBuffer = _
    rw [hb, itoa_toInt_of_lt t.intBits _ he, hd]
    simp [strcpyInto, hlen]
  obtain ⟨a1, b1, c1, p1, g1, v1⟩ := digitChar_facts (epoch % 10) (Nat.mod_lt _ (by decide))
  have g9 : (composeRequest t p vars epoch (initState tx0)).tempBuffer.getD 9 NUL
      = digitChar (epoch % 10) := by
    rw [htemp, List.getD_eq_getElem?_getD, List.getElem?_append_right (by omega), hlen]
    rfl
  have g10 : (composeRequest t p vars epoch (initState tx0)).tempBuffer.getD 10 NUL = NUL := by
    rw [htemp, List.getD_eq_getElem?_getD, List.getElem?_append_right (by omega), hlen]
    simp
  unfold responseCodeOf
  rw [if_pos (by decide), g9, g10]
  have hc : cstr ([digitChar (epoch % 10), NUL,
      (composeRequest t p vars epoch (initState tx0)).tempBuffer.getD 11 NUL] ++ stack)
      = [digitChar (epoch % 10)] := by
    have a0 : (NUL != NUL) = false := by decide
    simp only [cstr, List.cons_append, List.takeWhile, a1, a0]
  simp only [hc, atoi, List.dropWhile, b1, p1, c1, if_false, atoiDigits, g1, if_true, v1]
  unfold toInt16
  have : epoch % 10 < 10 := Nat.mod_lt _ (by decide)
  push_cast
  omega

end IoTPlotter
